import Mathlib

/-!
Verification of the expression-tree core of `src/teachers/maths.py`.

The Python classes `Integer`, `Decimal`, `Symbol`, `Pi`, `Inf`, `Add`, `Mul`,
`Fraction`, `Pow`, `Equality`, `StrictGreaterThan`, `Interval` and `Image`
are embedded as one inductive type `MObj`.  Machine floats (the `x` field of
`Decimal` and Python float arithmetic) are modelled as exact rationals `ℚ`;
Python `int` is modelled as `ℤ`.  A Python method that can raise is modelled
with an explicit error constructor; the Python value `None` (which
`Fraction.simplified` can return because of a missing `return` statement) is
modelled as `Option.none`.  The external algebra backend (sympy) is an
external collaborator per the spec (§6); the two fallback entry points that
`simplified()` uses, and the floating-point `n ** (p/q)` integrality test of
`Pow.simplified`, are abstracted as a `Backend` parameter.
-/

namespace Teachers

/-- Decidable equality for `Except` results (used by the concrete
scenario checks). -/
instance {α β : Type} [DecidableEq α] [DecidableEq β] : DecidableEq (Except α β) :=
  fun a b =>
    match a, b with
    | .ok x, .ok y =>
        if h : x = y then .isTrue (by rw [h]) else .isFalse (by simp [h])
    | .error x, .error y =>
        if h : x = y then .isTrue (by rw [h]) else .isFalse (by simp [h])
    | .ok _, .error _ => .isFalse (by simp)
    | .error _, .ok _ => .isFalse (by simp)

/-- Expression nodes of `teachers.maths`.  `Decimal` keeps its three raw
fields (`p`, `q` optional ints and `x` an optional float, modelled `ℚ`);
`Image` is modelled with a single argument (the `MathsCollection` arity is
outside this model).  Multi-argument collections never occur in the claims. -/
inductive MObj : Type where
  | Integer (n : ℤ)
  | Decimal (p q : Option ℤ) (x : Option ℚ)
  | Symbol (s : String)
  | Pi
  | Inf
  | Add (l r : MObj)
  | Mul (l r : MObj)
  | Fraction (p q : MObj)
  | Pow (base exp : MObj)
  | Equality (l r : MObj)
  | StrictGreaterThan (l r : MObj)
  | Interval (l r : MObj) (left_open right_open : Bool)
  | Image (fname : String) (pre : MObj)
deriving DecidableEq

/-- Result of calling a Python method that may raise: `.val m` is a normal
return (with `m = none` for Python's `None`), `.raised` an exception
propagating to the caller, and `.fuel` is a model artifact marking an
exhausted recursion budget (Python has no such bound; every theorem below
supplies enough fuel for the run it talks about). -/
inductive SRes : Type where
  | val (m : Option MObj)
  | raised (msg : String)
  | fuel
deriving DecidableEq

/-- Truthiness of the optional float field of `Decimal` (`if x:` in Python):
`None` and `0.0` are falsy. -/
def truthyQ : Option ℚ → Bool
  | none => false
  | some r => r ≠ 0

/-- Python unary minus, `MathsObject.__neg__` (maths.py lines 51-58): an
`Integer` flips its `n`; a `Mul` whose left factor is `Integer(-1)` is
unwrapped; anything else is wrapped in `Mul(Integer(-1), ·)`. -/
def negM (m : MObj) : MObj :=
  match m with
  | .Integer n => .Integer (-n)
  | .Mul l r => if l = .Integer (-1) then r else .Mul (.Integer (-1)) (.Mul l r)
  | _ => .Mul (.Integer (-1)) m

/-- Shape of the source pattern `Mul(Integer(n=-1), r1)`. -/
def isNegOneMul : MObj → Bool
  | .Mul (.Integer n) _ => n = -1
  | _ => false

/-- Construction of `Decimal`, mirroring `Decimal.compute_sympy_expr`
(maths.py lines 270-285): all three fields supplied is an error, else the
`p`/`q` pair wins when complete (with `sp.Rational(p, q)` failing on a zero
denominator), else a supplied `x` wins, else an error. -/
def mkDecimal (p q : Option ℤ) (x : Option ℚ) : Except String MObj :=
  if p.isSome ∧ q.isSome ∧ x.isSome then
    .error "ValueError: Must provide either x OR p and q"
  else if h : p.isSome ∧ q.isSome then
    if q.get h.2 = 0 then .error "sympy: zero denominator"
    else .ok (.Decimal p q none)
  else if x.isSome then .ok (.Decimal p q x)
  else .error "ValueError: Must provide either x OR p and q"

/-- Construction helper used inside `simplified` for `Decimal(x=...)`:
always succeeds. -/
def mkDecimalX (x : ℚ) : MObj := .Decimal none none (some x)

/-- Construction helper for `Decimal(p=..., q=...)` with ints known to be
present: fails only on a zero denominator. -/
def mkDecimalPQ (p q : ℤ) : Except String MObj :=
  if q = 0 then .error "sympy: zero denominator" else .ok (.Decimal (some p) (some q) none)

/-- Construction of `Fraction`, mirroring its two field validators
(maths.py lines 711-734): the numerator must be a node (Python `None` is a
`NotImplementedError`), the denominator must be a node and must not be the
literal `Integer(0)`. -/
def mkFraction (p q : Option MObj) : Except String MObj :=
  match p, q with
  | some p', some q' =>
      if q' = .Integer 0 then .error "ValueError: Denominator cannot be zero"
      else .ok (.Fraction p' q')
  | none, _ => .error "NotImplementedError: Fraction numerator"
  | _, none => .error "NotImplementedError: Fraction denominator"

/-- Construction of `Add` from possibly-`None` children (pydantic rejects a
`None` field with a `ValidationError`). -/
def mkAdd (l r : Option MObj) : Except String MObj :=
  match l, r with
  | some l', some r' => .ok (.Add l' r')
  | _, _ => .error "ValidationError: Add field is None"

/-- Construction of `Mul` from possibly-`None` children. -/
def mkMul (l r : Option MObj) : Except String MObj :=
  match l, r with
  | some l', some r' => .ok (.Mul l' r')
  | _, _ => .error "ValidationError: Mul field is None"

/-- Construction of `Pow` from possibly-`None` children. -/
def mkPow (b e : Option MObj) : Except String MObj :=
  match b, e with
  | some b', some e' => .ok (.Pow b' e')
  | _, _ => .error "ValidationError: Pow field is None"

/-- Construction of `Image` from a possibly-`None` argument. -/
def mkImage (fname : String) (pre : Option MObj) : Except String MObj :=
  match pre with
  | some p => .ok (.Image fname p)
  | none => .error "ValidationError: Image pre is None"

/-- Lift a construction into an `SRes`, continuing with `k` on success. -/
def mkBind (c : Except String MObj) (k : MObj → SRes) : SRes :=
  match c with
  | .ok m => k m
  | .error e => .raised e

/-- Lift a construction into a plain `SRes` return. -/
def mkRet (c : Except String MObj) : SRes :=
  mkBind c (fun m => .val (some m))

/-- Sequencing of two child simplifications (Python evaluates
`self.l.simplified(), self.r.simplified()` left to right; an exception in
the left child prevents the right call). -/
def bind2 (a b : SRes) (k : Option MObj → Option MObj → SRes) : SRes :=
  match a with
  | .val ma =>
      match b with
      | .val mb => k ma mb
      | other => other
  | other => other

/-- Continuation on an `SRes` that must carry an actual node: a Python
`None` flowing into a constructor or operator raises. -/
def SRes.need (r : SRes) (msg : String) (k : MObj → SRes) : SRes :=
  match r with
  | .val (some m) => k m
  | .val none => .raised msg
  | other => other

/-- Exact float of π, `float(sp.pi)`: the IEEE-754 double nearest π.  Only
used by `Pi.eval`, which no claim exercises. -/
def piFloat : ℚ := 884279719003555 / 281474976710656

/-- Python `a / b` on numbers: raises `ZeroDivisionError` on `b = 0`.
Float arithmetic is modelled as exact rational arithmetic. -/
def pyDiv (a b : ℚ) : Except String ℚ :=
  if b = 0 then .error "ZeroDivisionError" else .ok (a / b)

/-- Value of a `Decimal` node's fields, as used by `Decimal.eval`
(maths.py lines 305-309): the float `x` if present, else `p / q` (a missing
field is a Python `TypeError`, a zero `q` a `ZeroDivisionError`). -/
def decimalVal (p q : Option ℤ) (x : Option ℚ) : Except String ℚ :=
  match x with
  | some r => .ok r
  | none =>
      match p, q with
      | some a, some b => pyDiv (a : ℚ) (b : ℚ)
      | _, _ => .error "TypeError: unsupported operand"

/-- The `eval()` methods (numeric evaluation to a Python number, modelled in
`ℚ`).  `Symbol`, `Inf`, `Equality`, `StrictGreaterThan`, `Interval` and
`Image` have no `eval` and raise `NotImplementedError`.  `Pow.eval` is
Python float power; it is modelled exactly only for integral exponents (no
claim evaluates a non-integral power). -/
def evalM : MObj → Except String ℚ
  | .Integer n => .ok (n : ℚ)
  | .Decimal p q x => decimalVal p q x
  | .Pi => .ok piFloat
  | .Add l r =>
      match evalM l with
      | .error e => .error e
      | .ok a =>
          match evalM r with
          | .error e => .error e
          | .ok b => .ok (a + b)
  | .Mul l r =>
      match evalM l with
      | .error e => .error e
      | .ok a =>
          match evalM r with
          | .error e => .error e
          | .ok b => .ok (a * b)
  | .Fraction p q =>
      match evalM p with
      | .error e => .error e
      | .ok a =>
          match evalM q with
          | .error e => .error e
          | .ok b => pyDiv a b
  | .Pow b e =>
      match evalM b with
      | .error e => .error e
      | .ok bv =>
          match evalM e with
          | .error e => .error e
          | .ok ev =>
              if ev.den = 1 then
                if bv = 0 ∧ ev.num < 0 then .error "ZeroDivisionError"
                else .ok (bv ^ ev.num)
              else .error "model: non-integral float power not represented"
  | _ => .error "NotImplementedError: Eval"

/-- The `as_decimal` property of `Fraction` (maths.py lines 894-896):
`Decimal(p=self.p.eval(), q=self.q.eval())`.  The two evaluated numbers must
be integral for the int-typed `p`/`q` fields (pydantic lax coercion). -/
def asDecimal : MObj → Except String MObj
  | .Fraction p q =>
      match evalM p with
      | .error e => .error e
      | .ok pv =>
          match evalM q with
          | .error e => .error e
          | .ok qv =>
              if pv.den = 1 ∧ qv.den = 1 then mkDecimal (some pv.num) (some qv.num) none
              else .error "ValidationError: non-integral Decimal field"
  | _ => .error "model: as_decimal is a Fraction property"

/-- Validity of an `Interval` construction.  Modelled from the spec (§3):
the backend rejects the construction when it determines the set is empty
(left ≥ right); symbolic bounds are accepted.  The source delegates this to
`sp.Interval`, which is external; numeric bounds are decided through
`evalM`. -/
def intervalOk (l r : MObj) : Bool :=
  match evalM l, evalM r with
  | .ok a, .ok b => a < b
  | _, _ => true

/-- Construction of `Interval` from possibly-`None` children. -/
def mkInterval (l r : Option MObj) (lo ro : Bool) : Except String MObj :=
  match l, r with
  | some a, some b =>
      if intervalOk a b then .ok (.Interval a b lo ro)
      else .error "ValidationError: empty interval"
  | _, _ => .error "ValidationError: Interval field is None"

/-! ### Shape tests for the wildcard-family match arms -/

/-- Shape test for `Integer(_)`. -/
def isInt : MObj → Bool | .Integer _ => true | _ => false
/-- Shape test for `Decimal(_)`. -/
def isDec : MObj → Bool | .Decimal _ _ _ => true | _ => false
/-- Shape test for `Fraction(_)`. -/
def isFrac : MObj → Bool | .Fraction _ _ => true | _ => false
/-- Shape test for `Symbol(_)`. -/
def isSym : MObj → Bool | .Symbol _ => true | _ => false
/-- Shape test for `Mul(_, _)`. -/
def isMul : MObj → Bool | .Mul _ _ => true | _ => false
/-- Shape test for `Pow(_, _)`. -/
def isPow : MObj → Bool | .Pow _ _ => true | _ => false
/-- Shape test for `Add(_, _)`. -/
def isAdd : MObj → Bool | .Add _ _ => true | _ => false
/-- Shape test for `Pi()`. -/
def isPiA : MObj → Bool | .Pi => true | _ => false

/-- The external algebra backend (sympy), abstracted per the spec (§6).
`expandSimplify self` models the `Add`/`Mul` fallback
`from_sympy(self.sympy_expr.expand().simplify())` (`none` = any exception,
caught by the `except` arm); `simplifyOnly` models the `Fraction` fallback
`from_sympy(self.sympy_expr.simplify())`; `floatPow n p q` models the
machine-float test `x = n ** (p / q); x.is_integer()` of `Pow.simplified`
(`.ok (some m)` = the float is the integer `m`, `.ok none` = not an
integer, `.error` = the combination raises, e.g. a complex result for a
negative base or a zero division). -/
structure Backend where
  expandSimplify : MObj → Option MObj
  simplifyOnly : MObj → Option MObj
  floatPow : ℤ → ℤ → ℤ → Except String (Option ℤ)

/-- The "backend unavailable" instantiation: every fallback fails and is
caught, the float oracle reports a non-integral power.  Used to settle the
concrete scenarios, none of which reach a successful backend call. -/
def B0 : Backend where
  expandSimplify := fun _ => none
  simplifyOnly := fun _ => none
  floatPow := fun _ _ _ => .ok none

/-- Helper returning a freshly computed float as a `Decimal(x=...)` node, or
propagating the arithmetic exception. -/
def decRet (c : Except String ℚ) : SRes :=
  match c with
  | .ok v => .val (some (mkDecimalX v))
  | .error e => .raised e

/-- Value of `x1 if x1 is not None else p1 / q1` in `Add.simplified`'s
Decimal/Decimal arm. -/
def decOr (p q : Option ℤ) (x : Option ℚ) : Except String ℚ :=
  match x with
  | some xv => .ok xv
  | none =>
      match p, q with
      | some a, some b => pyDiv (a : ℚ) (b : ℚ)
      | _, _ => .error "TypeError: unsupported operand"

/-- First matching arm of a priority-ordered rule chain (Python `match`
fall-through). -/
def firstSome : List (Option SRes) → Option SRes
  | [] => none
  | some r :: _ => some r
  | none :: rest => firstSome rest

/-! ### `Add.simplified` (maths.py lines 438-522)

The priority-ordered `match` arms are transcribed as an `Option SRes` chain:
each element is one `case`; a `none` means the pattern (or its guard) does
not match and the next case is tried; the final `case _` (backend fallback,
then return the node unchanged) is the `Option.getD` default in `addSimp`.
`S` is the recursive `simplified()` call. -/

/-- Arm `(Integer(n), Decimal(p, q, x)) | (Decimal(p, q, x), Integer(n))` of
`Add.simplified` (`if x is not None`, else `n + p / q`). -/
def addIntDec (n : ℤ) (p q : Option ℤ) (x : Option ℚ) : SRes :=
  match x with
  | some xv => .val (some (mkDecimalX ((n : ℚ) + xv)))
  | none =>
      decRet (do
        let v ← decOr p q none
        pure ((n : ℚ) + v))

/-- Arm `(Decimal(p1, q1, x1), Fraction(p2, q2))` (either order) of
`Add.simplified`: the fraction members are `eval()`-ed and divided. -/
def addDecFrac (p1 q1 : Option ℤ) (x1 : Option ℚ) (p2 q2 : MObj) : SRes :=
  match x1 with
  | some xv =>
      decRet (do
        let a ← evalM p2
        let b ← evalM q2
        let f ← pyDiv a b
        pure (xv + f))
  | none =>
      decRet (do
        let d ← decOr p1 q1 none
        let a ← evalM p2
        let b ← evalM q2
        let f ← pyDiv a b
        pure (d + f))

/-- Arm 1 of `Add.simplified`: `case (x, Integer(0)) | (Integer(0), x)`. -/
def addArm01 (ls rs : Option MObj) : Option SRes :=
  match ls, rs with
  | x, some (.Integer n) => if n = 0 then some (.val x) else none
  | some (.Integer n), x => if n = 0 then some (.val x) else none
  | _, _ => none

/-- Arm 2 of `Add.simplified`: `case Integer(n1), Integer(n2)`. -/
def addArm02 (ls rs : Option MObj) : Option SRes :=
  match ls, rs with
  | some (.Integer n1), some (.Integer n2) => some (.val (some (.Integer (n1 + n2))))
  | _, _ => none

/-- Arm 3 of `Add.simplified`: `case Fraction(p1, q1), Fraction(p2, q2)`,
the cross-multiplied sum re-simplified. -/
def addArm03 (S : MObj → SRes) (ls rs : Option MObj) : Option SRes :=
  match ls, rs with
  | some (.Fraction p1 q1), some (.Fraction p2 q2) =>
      some (S (.Fraction (.Add (.Mul p1 q2) (.Mul p2 q1)) (.Mul q1 q2)))
  | _, _ => none

/-- Arm 4 of `Add.simplified`:
`case (Fraction(p, q), Integer(n)) | (Integer(n), Fraction(p, q))`. -/
def addArm04 (S : MObj → SRes) (ls rs : Option MObj) : Option SRes :=
  match ls, rs with
  | some (.Fraction p q), some (.Integer n) =>
      some (mkBind (mkFraction (some (.Add p (.Mul (.Integer n) q))) (some q)) S)
  | some (.Integer n), some (.Fraction p q) =>
      some (mkBind (mkFraction (some (.Add p (.Mul (.Integer n) q))) (some q)) S)
  | _, _ => none

/-- Arm 5 of `Add.simplified`:
`case (Integer(n), Decimal(p, q, x)) | (Decimal(p, q, x), Integer(n))`. -/
def addArm05 (ls rs : Option MObj) : Option SRes :=
  match ls, rs with
  | some (.Integer n), some (.Decimal p q x) => some (addIntDec n p q x)
  | some (.Decimal p q x), some (.Integer n) => some (addIntDec n p q x)
  | _, _ => none

/-- Arm 6 of `Add.simplified`:
`case (Decimal(p1, q1, x1), Fraction(p2, q2)) | (Fraction(..), Decimal(..))`. -/
def addArm06 (ls rs : Option MObj) : Option SRes :=
  match ls, rs with
  | some (.Decimal p1 q1 x1), some (.Fraction p2 q2) => some (addDecFrac p1 q1 x1 p2 q2)
  | some (.Fraction p2 q2), some (.Decimal p1 q1 x1) => some (addDecFrac p1 q1 x1 p2 q2)
  | _, _ => none

/-- Arm 7 of `Add.simplified`: `case Decimal(p1, q1, x1), Decimal(p2, q2, x2)`. -/
def addArm07 (ls rs : Option MObj) : Option SRes :=
  match ls, rs with
  | some (.Decimal p1 q1 x1), some (.Decimal p2 q2 x2) =>
      some (decRet (do
        let v1 ← decOr p1 q1 x1
        let v2 ← decOr p2 q2 x2
        pure (v1 + v2)))
  | _, _ => none

/-- Arm 8 of `Add.simplified`: `case Add(l, r), Decimal(p, q, x)`,
re-associating the numeric tail (note the `if x:` truthiness test). -/
def addArm08 (ls rs : Option MObj) : Option SRes :=
  match ls, rs with
  | some (.Add al ar), some (.Decimal p q x) =>
      some (if truthyQ x then .val (some (.Add al (.Add ar (mkDecimalX (x.getD 0)))))
            else mkBind (mkDecimal p q none) fun d => .val (some (.Add al (.Add ar d))))
  | _, _ => none

/-- Arm 9 of `Add.simplified`: `case Add(l, r), Integer(n)`, re-associating
with the numeric tail left unsimplified. -/
def addArm09 (ls rs : Option MObj) : Option SRes :=
  match ls, rs with
  | some (.Add al ar), some (.Integer n) =>
      some (.val (some (.Add al (.Add ar (.Integer n)))))
  | _, _ => none

/-- Arm 10 of `Add.simplified`: `case Symbol(s1), Symbol(s2) if s1 != s2`. -/
def addArm10 (ls rs : Option MObj) : Option SRes :=
  match ls, rs with
  | some (.Symbol s1), some (.Symbol s2) =>
      if s1 ≠ s2 then some (.val (some (.Add (.Symbol s1) (.Symbol s2)))) else none
  | _, _ => none

/-- Arms 11-18 of `Add.simplified`: the "do nothing" family pairs, returned
as `Add(l=l, r=r)` unchanged.  Each line is one source `case`. -/
def addKeepPair (a b : MObj) : Bool :=
  ((isSym a && (isInt b || isDec b)) || ((isInt a || isDec a) && isSym b)) ||
  ((isPiA a && (isInt b || isDec b || isFrac b)) || ((isInt a || isDec a || isFrac a) && isPiA b)) ||
  ((isMul a && isInt b) || (isInt a && isMul b)) ||
  ((isMul a && isSym b) || (isSym a && isMul b)) ||
  ((isPow a && isInt b) || (isInt a && isPow b)) ||
  ((isPow a && isMul b) || (isMul a && isPow b)) ||
  (isMul a && isMul b)

/-- Chain element for arms 11-18 of `Add.simplified`. -/
def addArm11 (ls rs : Option MObj) : Option SRes :=
  match ls, rs with
  | some a, some b => if addKeepPair a b then some (.val (some (.Add a b))) else none
  | _, _ => none

/-- The explicit rewrite arms of `Add.simplified`, in source order. -/
def addRules (S : MObj → SRes) (ls rs : Option MObj) : Option SRes :=
  firstSome
    [addArm01 ls rs, addArm02 ls rs, addArm03 S ls rs, addArm04 S ls rs,
     addArm05 ls rs, addArm06 ls rs, addArm07 ls rs, addArm08 ls rs,
     addArm09 ls rs, addArm10 ls rs, addArm11 ls rs]

/-- `Add.simplified` after both children have been simplified: the explicit
arms, else the sympy fallback, else the node rebuilt unchanged (the
`except` arm; a `None` child makes the rebuild raise a `ValidationError`). -/
def addSimp (B : Backend) (S : MObj → SRes) (self : MObj) (ls rs : Option MObj) : SRes :=
  (addRules S ls rs).getD
    (match B.expandSimplify self with
     | some m => .val (some m)
     | none => mkRet (mkAdd ls rs))


/-! ### `Mul.simplified` (maths.py lines 602-698) -/

/-- Arm `(Integer(n), Decimal(p, q, x)) | (Decimal(p, q, x), Integer(n))` of
`Mul.simplified` (note the `if x:` truthiness test at line 618: a stored
`x = 0.0` takes the `p`/`q` branch). -/
def mulIntDec (n : ℤ) (p q : Option ℤ) (x : Option ℚ) : SRes :=
  if truthyQ x then .val (some (mkDecimalX (n * x.getD 0)))
  else
    match p with
    | some a => mkRet (mkDecimal (some (n * a)) q none)
    | none => .raised "TypeError: unsupported operand"

/-- Arm `(Mul(l, Symbol(s)), Decimal(p, q, x))` of `Mul.simplified`: the
numeric coefficient is multiplied into the inner factor (inner product
simplified, outer product not). -/
def mulMulSymDec (S : MObj → SRes) (l : MObj) (s : String) (p q : Option ℤ)
    (x : Option ℚ) : SRes :=
  if truthyQ x then
    (S (.Mul (mkDecimalX (x.getD 0)) l)).need "ValidationError: Mul field is None" fun m =>
      .val (some (.Mul m (.Symbol s)))
  else
    mkBind (mkDecimal p q none) fun d =>
      (S (.Mul d l)).need "ValidationError: Mul field is None" fun m =>
        .val (some (.Mul m (.Symbol s)))

/-- The FOIL arm `case Add(l1, r1), Add(l2, r2)` of `Mul.simplified`
(maths.py lines 682-688): the four pairwise products are simplified in
source order, then their left-nested sum `ac + ad + bc + bd` is simplified.
This is the one case that calls back into the core `Add`/`Mul` rules
instead of falling back to the backend. -/
def foilExpand (S : MObj → SRes) (l1 r1 l2 r2 : MObj) : SRes :=
  match S (.Mul l1 l2) with
  | .val ac =>
    match S (.Mul l1 r2) with
    | .val ad =>
      match S (.Mul r1 l2) with
      | .val bc =>
        match S (.Mul r1 r2) with
        | .val bd =>
            match ac with
            | none => .raised "TypeError: unsupported operand"
            | some ac1 =>
                mkBind (mkAdd (some ac1) ad) fun s1 =>
                mkBind (mkAdd (some s1) bc) fun s2 =>
                mkBind (mkAdd (some s2) bd) fun s3 => S s3
        | other => other
      | other => other
    | other => other
  | other => other

/-- Arm 1 of `Mul.simplified`: `case (Integer(1), x) | (x, Integer(1))`. -/
def mulArm01 (ls rs : Option MObj) : Option SRes :=
  match ls, rs with
  | some (.Integer n), x => if n = 1 then some (.val x) else mulArm01b (some (.Integer n)) x
  | a, b => mulArm01b a b
where
  /-- Second alternative `(x, Integer(1))`. -/
  mulArm01b (ls rs : Option MObj) : Option SRes :=
    match ls, rs with
    | x, some (.Integer n) => if n = 1 then some (.val x) else none
    | _, _ => none

/-- Arm 2 of `Mul.simplified`: `case (Integer(0), x) | (x, Integer(0))`. -/
def mulArm02 (ls rs : Option MObj) : Option SRes :=
  match ls, rs with
  | some (.Integer n), x => if n = 0 then some (.val (some (.Integer 0))) else mulArm02b (some (.Integer n)) x
  | a, b => mulArm02b a b
where
  /-- Second alternative `(x, Integer(0))`. -/
  mulArm02b (ls rs : Option MObj) : Option SRes :=
    match ls, rs with
    | _, some (.Integer n) => if n = 0 then some (.val (some (.Integer 0))) else none
    | _, _ => none

/-- Arm 3 of `Mul.simplified`: `case Integer(n1), Integer(n2)`. -/
def mulArm03 (ls rs : Option MObj) : Option SRes :=
  match ls, rs with
  | some (.Integer n1), some (.Integer n2) => some (.val (some (.Integer (n1 * n2))))
  | _, _ => none

/-- Arm 4 of `Mul.simplified`: the Integer/Decimal pair (either order). -/
def mulArm04 (ls rs : Option MObj) : Option SRes :=
  match ls, rs with
  | some (.Integer n), some (.Decimal p q x) => some (mulIntDec n p q x)
  | some (.Decimal p q x), some (.Integer n) => some (mulIntDec n p q x)
  | _, _ => none

/-- Arm 5 of `Mul.simplified`:
`case (Integer(n), Fraction(p, q)) | (Fraction(p, q), Integer(n))`. -/
def mulArm05 (S : MObj → SRes) (ls rs : Option MObj) : Option SRes :=
  match ls, rs with
  | some (.Integer n), some (.Fraction p q) =>
      some (mkBind (mkFraction (some (.Mul (.Integer n) p)) (some q)) S)
  | some (.Fraction p q), some (.Integer n) =>
      some (mkBind (mkFraction (some (.Mul (.Integer n) p)) (some q)) S)
  | _, _ => none

/-- Arm 6 of `Mul.simplified`: Integer/Pow (either order), canonicalized
with the integer on the left. -/
def mulArm06 (ls rs : Option MObj) : Option SRes :=
  match ls, rs with
  | some (.Integer n), some (.Pow b e) => some (.val (some (.Mul (.Integer n) (.Pow b e))))
  | some (.Pow b e), some (.Integer n) => some (.val (some (.Mul (.Integer n) (.Pow b e))))
  | _, _ => none

/-- Arm 7 of `Mul.simplified`: `case Fraction(p1, q1), Fraction(p2, q2)`. -/
def mulArm07 (S : MObj → SRes) (ls rs : Option MObj) : Option SRes :=
  match ls, rs with
  | some (.Fraction p1 q1), some (.Fraction p2 q2) =>
      some (S (.Fraction (.Mul p1 p2) (.Mul q1 q2)))
  | _, _ => none

/-- Arm 8 of `Mul.simplified`: `case (Mul(l, Symbol(s)), Decimal(p, q, x))`. -/
def mulArm08 (S : MObj → SRes) (ls rs : Option MObj) : Option SRes :=
  match ls, rs with
  | some (.Mul l (.Symbol s)), some (.Decimal p q x) => some (mulMulSymDec S l s p q x)
  | _, _ => none

/-- Arm 9 of `Mul.simplified`: `case Symbol(s1), Symbol(s2) if s1 != s2`. -/
def mulArm09 (ls rs : Option MObj) : Option SRes :=
  match ls, rs with
  | some (.Symbol s1), some (.Symbol s2) =>
      if s1 ≠ s2 then some (.val (some (.Mul (.Symbol s1) (.Symbol s2)))) else none
  | _, _ => none

/-- Arm 10 of `Mul.simplified`: Integer/Image (either order), integer
left. -/
def mulArm10 (ls rs : Option MObj) : Option SRes :=
  match ls, rs with
  | some (.Integer n), some (.Image g pre) => some (.val (some (.Mul (.Integer n) (.Image g pre))))
  | some (.Image g pre), some (.Integer n) => some (.val (some (.Mul (.Integer n) (.Image g pre))))
  | _, _ => none

/-- Arm 11 of `Mul.simplified`: Integer/Symbol (either order), integer
left. -/
def mulArm11 (ls rs : Option MObj) : Option SRes :=
  match ls, rs with
  | some (.Integer n), some (.Symbol s) => some (.val (some (.Mul (.Integer n) (.Symbol s))))
  | some (.Symbol s), some (.Integer n) => some (.val (some (.Mul (.Integer n) (.Symbol s))))
  | _, _ => none

/-- Arm 12 of `Mul.simplified`: Decimal/Image (either order); the decimal
is reconstructed through `Decimal(p=p, q=q, x=x)`, re-running validation. -/
def mulArm12 (ls rs : Option MObj) : Option SRes :=
  match ls, rs with
  | some (.Decimal p q x), some (.Image g pre) =>
      some (mkBind (mkDecimal p q x) fun d => .val (some (.Mul d (.Image g pre))))
  | some (.Image g pre), some (.Decimal p q x) =>
      some (mkBind (mkDecimal p q x) fun d => .val (some (.Mul d (.Image g pre))))
  | _, _ => none

/-- Arm 13 of `Mul.simplified`: Integer/Pi (either order), integer left. -/
def mulArm13 (ls rs : Option MObj) : Option SRes :=
  match ls, rs with
  | some (.Integer n), some .Pi => some (.val (some (.Mul (.Integer n) .Pi)))
  | some .Pi, some (.Integer n) => some (.val (some (.Mul (.Integer n) .Pi)))
  | _, _ => none

/-- Arm 14 of `Mul.simplified`: Decimal/Pi (either order), decimal
reconstructed and left. -/
def mulArm14 (ls rs : Option MObj) : Option SRes :=
  match ls, rs with
  | some (.Decimal p q x), some .Pi =>
      some (mkBind (mkDecimal p q x) fun d => .val (some (.Mul d .Pi)))
  | some .Pi, some (.Decimal p q x) =>
      some (mkBind (mkDecimal p q x) fun d => .val (some (.Mul d .Pi)))
  | _, _ => none

/-- Arm 15 of `Mul.simplified`: Fraction/Pi (either order), fraction
reconstructed (re-running its validators) and left. -/
def mulArm15 (ls rs : Option MObj) : Option SRes :=
  match ls, rs with
  | some (.Fraction p q), some .Pi =>
      some (mkBind (mkFraction (some p) (some q)) fun fr => .val (some (.Mul fr .Pi)))
  | some .Pi, some (.Fraction p q) =>
      some (mkBind (mkFraction (some p) (some q)) fun fr => .val (some (.Mul fr .Pi)))
  | _, _ => none

/-- Arm 16 of `Mul.simplified`: Pi/Pow (either order), Pi left. -/
def mulArm16 (ls rs : Option MObj) : Option SRes :=
  match ls, rs with
  | some .Pi, some (.Pow b e) => some (.val (some (.Mul .Pi (.Pow b e))))
  | some (.Pow b e), some .Pi => some (.val (some (.Mul .Pi (.Pow b e))))
  | _, _ => none

/-- Arm 17 of `Mul.simplified`: Mul/Symbol (either order), symbol right. -/
def mulArm17 (ls rs : Option MObj) : Option SRes :=
  match ls, rs with
  | some (.Mul a b), some (.Symbol s) => some (.val (some (.Mul (.Mul a b) (.Symbol s))))
  | some (.Symbol s), some (.Mul a b) => some (.val (some (.Mul (.Mul a b) (.Symbol s))))
  | _, _ => none

/-- Arm 18 of `Mul.simplified`: `case (Integer(n), Mul(mul_l, mul_r))`,
distributing the integer: `Mul(Mul(n, a).simplified(), b).simplified()`. -/
def mulArm18 (S : MObj → SRes) (ls rs : Option MObj) : Option SRes :=
  match ls, rs with
  | some (.Integer n), some (.Mul a b) =>
      some ((S (.Mul (.Integer n) a)).need "ValidationError: Mul field is None" fun m =>
        S (.Mul m b))
  | _, _ => none

/-- Arm 19 of `Mul.simplified`: `case (Mul(mul_l, mul_r), Integer(n))`,
distributing to the right: `Mul(a, Mul(b, n).simplified()).simplified()`. -/
def mulArm19 (S : MObj → SRes) (ls rs : Option MObj) : Option SRes :=
  match ls, rs with
  | some (.Mul a b), some (.Integer n) =>
      some ((S (.Mul b (.Integer n))).need "ValidationError: Mul field is None" fun m =>
        S (.Mul a m))
  | _, _ => none

/-- Arm 20 of `Mul.simplified`: Mul/Pow (either order), `Mul` left. -/
def mulArm20 (ls rs : Option MObj) : Option SRes :=
  match ls, rs with
  | some (.Mul a b), some (.Pow c e) => some (.val (some (.Mul (.Mul a b) (.Pow c e))))
  | some (.Pow c e), some (.Mul a b) => some (.val (some (.Mul (.Mul a b) (.Pow c e))))
  | _, _ => none

/-- Arm 21 of `Mul.simplified`: the FOIL case `Add(l1, r1), Add(l2, r2)`. -/
def mulArm21 (S : MObj → SRes) (ls rs : Option MObj) : Option SRes :=
  match ls, rs with
  | some (.Add l1 r1), some (.Add l2 r2) => some (foilExpand S l1 r1 l2 r2)
  | _, _ => none

/-- The explicit rewrite arms of `Mul.simplified`, in source order. -/
def mulRules (S : MObj → SRes) (ls rs : Option MObj) : Option SRes :=
  firstSome
    [mulArm01 ls rs, mulArm02 ls rs, mulArm03 ls rs, mulArm04 ls rs,
     mulArm05 S ls rs, mulArm06 ls rs, mulArm07 S ls rs, mulArm08 S ls rs,
     mulArm09 ls rs, mulArm10 ls rs, mulArm11 ls rs, mulArm12 ls rs,
     mulArm13 ls rs, mulArm14 ls rs, mulArm15 ls rs, mulArm16 ls rs,
     mulArm17 ls rs, mulArm18 S ls rs, mulArm19 S ls rs, mulArm20 ls rs,
     mulArm21 S ls rs]

/-- `Mul.simplified` after both children have been simplified: explicit
arms, else the sympy fallback, else the node rebuilt unchanged. -/
def mulSimp (B : Backend) (S : MObj → SRes) (self : MObj) (ls rs : Option MObj) : SRes :=
  (mulRules S ls rs).getD
    (match B.expandSimplify self with
     | some m => .val (some m)
     | none => mkRet (mkMul ls rs))



/-! ### `Fraction.simplified` (maths.py lines 785-892) -/

/-- Arm 1 of `Fraction.simplified`: `case _, Integer(1): return p` (a
`None` numerator would be returned as-is, i.e. Python `None`). -/
def fracArm01 (ps qs : Option MObj) : Option SRes :=
  match ps, qs with
  | p, some (.Integer n) => if n = 1 then some (.val p) else none
  | _, _ => none

/-- Arm 2 of `Fraction.simplified`: `case _, Integer(n2) if n2 < 0`, sign
flipped onto the numerator via `Fraction(p=-p, q=-q).simplified()`. -/
def fracArm02 (S : MObj → SRes) (ps qs : Option MObj) : Option SRes :=
  match ps, qs with
  | p, some (.Integer n) =>
      if n < 0 then
        some (match p with
              | some p1 => mkBind (mkFraction (some (negM p1)) (some (.Integer (-n)))) S
              | none => .raised "TypeError: bad operand type for unary -")
      else none
  | _, _ => none

/-- Arm 3 of `Fraction.simplified`: `case Integer(n1), Integer(n2)`, the
gcd reduction.  The source computes `int(sp.gcd(...))` on the original
member expressions, whose sympy value coincides with the simplified integer
values in this arm, and reduces with `int(n1 / gcd)`; since the gcd divides
both members exactly, the float detour is modelled as exact division. -/
def fracArm03 (S : MObj → SRes) (ps qs : Option MObj) : Option SRes :=
  match ps, qs with
  | some (.Integer n1), some (.Integer n2) =>
      let g : ℤ := (Int.gcd n1 n2 : ℤ)
      some (if 1 < g then
              mkBind (mkFraction (some (.Integer (n1 / g))) (some (.Integer (n2 / g)))) S
            else mkRet (mkFraction (some (.Integer n1)) (some (.Integer n2))))
  | _, _ => none

/-- Arm 4 of `Fraction.simplified`: `case Integer(n), Fraction(p, q)`,
`Fraction(p=Integer(n=n*q.n), q=p).simplified()` — the source reads `q.n`,
an `AttributeError` unless the inner denominator is an `Integer`. -/
def fracArm04 (S : MObj → SRes) (ps qs : Option MObj) : Option SRes :=
  match ps, qs with
  | some (.Integer n), some (.Fraction p q) =>
      some (match q with
            | .Integer m => mkBind (mkFraction (some (.Integer (n * m))) (some p)) S
            | _ => .raised "AttributeError: n")
  | _, _ => none

/-- Arm 5 of `Fraction.simplified`: `case Integer(n), Decimal(p, q, x)`.
When `x` is truthy the source computes `Decimal(x=n / x)` but has no
`return`, so the whole method returns Python `None` (`.val none`); the
falsy branch returns `Decimal(x=(n * q) / p)`. -/
def fracArm05 (ps qs : Option MObj) : Option SRes :=
  match ps, qs with
  | some (.Integer n), some (.Decimal p q x) =>
      some (if truthyQ x then .val none
            else
              match p, q with
              | some a, some b =>
                  (match pyDiv (((n * b : ℤ) : ℚ)) ((a : ℤ) : ℚ) with
                   | .ok v => .val (some (mkDecimalX v))
                   | .error e => .raised e)
              | _, _ => .raised "TypeError: unsupported operand")
  | _, _ => none

/-- Arm 7 of `Fraction.simplified` (source line 814):
`case Fraction(p1, q1), Fraction(p2, q2)`, cross-multiplied. -/
def fracArm07 (S : MObj → SRes) (ps qs : Option MObj) : Option SRes :=
  match ps, qs with
  | some (.Fraction p1 q1), some (.Fraction p2 q2) =>
      some (S (.Fraction (.Mul p1 q2) (.Mul p2 q1)))
  | _, _ => none

/-- Arm 19 of `Fraction.simplified` (source line 864): `case Pi(), Pi()`
collapses to `Integer(1)`. -/
def fracArmPiPi (ps qs : Option MObj) : Option SRes :=
  match ps, qs with
  | some .Pi, some .Pi => some (.val (some (.Integer 1)))
  | _, _ => none

/-- The 16 "preserve as-is" shape pairs of `Fraction.simplified` (source
lines 811-882 minus the Pi/Pi case): Mul/Add, Add/Add, Symbol over
Mul-Symbol-Pi-Pow, Mul over Symbol-Mul-Pi-Pow, Pi over Symbol-Mul,
Integer/Pi, Pow over Symbol-Mul-Pow. -/
def fracKeepPair (a b : MObj) : Bool :=
  (isMul a && isAdd b) || (isAdd a && isAdd b) ||
  (isSym a && (isMul b || isSym b || isPiA b || isPow b)) ||
  (isMul a && (isSym b || isMul b || isPiA b || isPow b)) ||
  (isPiA a && (isSym b || isMul b)) ||
  (isInt a && isPiA b) ||
  (isPow a && (isSym b || isMul b || isPow b))

/-- Chain element for the "preserve as-is" arms of `Fraction.simplified`:
`return Fraction(p=p, q=q)` with the simplified members. -/
def fracArmKeep (ps qs : Option MObj) : Option SRes :=
  match ps, qs with
  | some a, some b =>
      if fracKeepPair a b then some (mkRet (mkFraction (some a) (some b))) else none
  | _, _ => none

/-- The explicit rewrite arms of `Fraction.simplified`, in source order
(the disjoint "preserve as-is" pairs are collapsed into one element; the
Pi/Pi arm does not overlap any of them, so this preserves the source's
priority order). -/
def fracRules (S : MObj → SRes) (ps qs : Option MObj) : Option SRes :=
  firstSome
    [fracArm01 ps qs, fracArm02 S ps qs, fracArm03 S ps qs, fracArm04 S ps qs,
     fracArm05 ps qs, fracArm07 S ps qs, fracArmPiPi ps qs, fracArmKeep ps qs]

/-- `Fraction.simplified` after both members have been simplified: explicit
arms, else the sympy fallback (`self.sympy_expr.simplify()`), else the node
rebuilt unchanged through its validators. -/
def fracSimp (B : Backend) (S : MObj → SRes) (self : MObj) (ps qs : Option MObj) : SRes :=
  (fracRules S ps qs).getD
    (match B.simplifyOnly self with
     | some m => .val (some m)
     | none => mkRet (mkFraction ps qs))

/-! ### `Pow.simplified` (maths.py lines 987-1029) -/

/-- Arm 1 of `Pow.simplified`: `case (_, Integer(-1))`, the reciprocal
`Fraction(p=Integer(1), q=base)` (whose denominator validator raises on a
zero base, and on a `None` base). -/
def powArm1 (bs es : Option MObj) : Option SRes :=
  match es with
  | some (.Integer n) =>
      if n = -1 then some (mkRet (mkFraction (some (.Integer 1)) bs)) else none
  | _ => none

/-- Arm 2 of `Pow.simplified`: `case Integer(n1), Integer(n2) if n2 < 0`,
giving `Fraction(p=Integer(1), q=Integer(n1 ** (-n2)))`. -/
def powArm2 (bs es : Option MObj) : Option SRes :=
  match bs, es with
  | some (.Integer n1), some (.Integer n2) =>
      if n2 < 0 then
        some (mkRet (mkFraction (some (.Integer 1)) (some (.Integer (n1 ^ (-n2).toNat)))))
      else none
  | _, _ => none

/-- Arm 3 of `Pow.simplified`: `case Add(l, r), Integer(2)`, the square
expansion `l**2 + (2*l*r).simplified() + r**2` (only the middle term is
simplified; the sum is returned left-nested and unsimplified). -/
def powArm3 (S : MObj → SRes) (bs es : Option MObj) : Option SRes :=
  match bs, es with
  | some (.Add l r), some (.Integer n) =>
      if n = 2 then
        some ((S (.Mul (.Mul (.Integer 2) l) r)).need "ValidationError: Add field is None"
          fun mid =>
            .val (some (.Add (.Add (.Pow l (.Integer 2)) mid) (.Pow r (.Integer 2)))))
      else none
  | _, _ => none

/-- Arm 4 of `Pow.simplified`: `case Mul(l, r), Fraction(p, q)` rebuilds
the power unchanged. -/
def powArm4 (bs es : Option MObj) : Option SRes :=
  match bs, es with
  | some (.Mul a b), some (.Fraction p q) =>
      some (.val (some (.Pow (.Mul a b) (.Fraction p q))))
  | _, _ => none

/-- Arm 5 of `Pow.simplified`: `case Integer(n1), Integer(n2)` (only
reachable with `n2 ≥ 0`), integer power. -/
def powArm5 (bs es : Option MObj) : Option SRes :=
  match bs, es with
  | some (.Integer n1), some (.Integer n2) => some (.val (some (.Integer (n1 ^ n2.toNat))))
  | _, _ => none

/-- Arm 6 of `Pow.simplified`: `case Integer(n), Fraction(Integer(p),
Integer(q))`: the machine-float test `x = n ** (p / q); x.is_integer()`,
delegated to the backend's float oracle. -/
def powArm6 (B : Backend) (bs es : Option MObj) : Option SRes :=
  match bs, es with
  | some (.Integer n), some (.Fraction (.Integer p) (.Integer q)) =>
      some (match B.floatPow n p q with
            | .error e => .raised e
            | .ok (some m) => .val (some (.Integer m))
            | .ok none =>
                .val (some (.Pow (.Integer n) (.Fraction (.Integer p) (.Integer q)))))
  | _, _ => none

/-- Arm 7 of `Pow.simplified`: `case Fraction(Integer(n1), Integer(n2)),
Integer(n3)`, distributing the exponent: `Fraction(p=n1**n3, q=n2**n3)`.
A negative `n3` makes `n1 ** n3` a Python float, which the int-only
numerator validator rejects with `NotImplementedError`. -/
def powArm7 (bs es : Option MObj) : Option SRes :=
  match bs, es with
  | some (.Fraction (.Integer n1) (.Integer n2)), some (.Integer n3) =>
      some (if n3 < 0 then .raised "NotImplementedError: Fraction numerator"
            else mkRet (mkFraction (some (.Integer (n1 ^ n3.toNat)))
                                   (some (.Integer (n2 ^ n3.toNat)))))
  | _, _ => none

/-- Arm 8 of `Pow.simplified`: `case Decimal(p, q, x), Integer(n)` (note
the `if x:` truthiness; the `p**n`/`q**n` branch produces Python floats for
a negative `n`, rejected by the int-typed fields). -/
def powArm8 (bs es : Option MObj) : Option SRes :=
  match bs, es with
  | some (.Decimal p q x), some (.Integer n) =>
      some (if truthyQ x then .val (some (mkDecimalX ((x.getD 0) ^ n)))
            else if n < 0 then .raised "ValidationError: non-integral Decimal field"
            else
              match p, q with
              | some a, some b => mkRet (mkDecimalPQ (a ^ n.toNat) (b ^ n.toNat))
              | _, _ => .raised "TypeError: unsupported operand")
  | _, _ => none

/-- Arm 9 of `Pow.simplified`: `case (Symbol(s), Integer(n)) | (Integer(n),
Symbol(s)): return self` — the original node, not a rebuild. -/
def powArm9 (self : MObj) (bs es : Option MObj) : Option SRes :=
  match bs, es with
  | some (.Symbol _), some (.Integer _) => some (.val (some self))
  | some (.Integer _), some (.Symbol _) => some (.val (some self))
  | _, _ => none

/-- The explicit rewrite arms of `Pow.simplified`, in source order. -/
def powRules (B : Backend) (S : MObj → SRes) (self : MObj) (bs es : Option MObj) :
    Option SRes :=
  firstSome
    [powArm1 bs es, powArm2 bs es, powArm3 S bs es, powArm4 bs es, powArm5 bs es,
     powArm6 B bs es, powArm7 bs es, powArm8 bs es, powArm9 self bs es]

/-- `Pow.simplified` after both children have been simplified: explicit
arms, else `raise NotImplementedError` — `Pow` has no backend fallback. -/
def powSimp (B : Backend) (S : MObj → SRes) (self : MObj) (bs es : Option MObj) : SRes :=
  (powRules B S self bs es).getD
    (.raised "NotImplementedError: Simplification of Pow")

/-- The `simplified()` methods, with a fuel bound driving the model's
recursion (`.fuel` marks exhaustion; Python recursion is unbounded).
Atoms return themselves; `Image`, `Equality`, `StrictGreaterThan` and
`Interval` simplify children and rebuild (re-running construction
validation); `Add`, `Mul`, `Fraction` and `Pow` dispatch on the pair of
simplified children through their rule tables above. -/
def simplifiedF (B : Backend) : Nat → MObj → SRes
  | 0, _ => .fuel
  | _ + 1, .Integer n => .val (some (.Integer n))
  | _ + 1, .Decimal p q x => .val (some (.Decimal p q x))
  | _ + 1, .Symbol s => .val (some (.Symbol s))
  | _ + 1, .Pi => .val (some .Pi)
  | _ + 1, .Inf => .val (some .Inf)
  | f + 1, .Image g pre =>
      (simplifiedF B f pre).need "ValidationError: Image pre is None" fun m =>
        .val (some (.Image g m))
  | f + 1, .Equality l r =>
      bind2 (simplifiedF B f l) (simplifiedF B f r) fun a b =>
        match a, b with
        | some a1, some b1 => .val (some (.Equality a1 b1))
        | _, _ => .raised "ValidationError: Equality field is None"
  | f + 1, .StrictGreaterThan l r =>
      bind2 (simplifiedF B f l) (simplifiedF B f r) fun a b =>
        match a, b with
        | some a1, some b1 => .val (some (.StrictGreaterThan a1 b1))
        | _, _ => .raised "ValidationError: StrictGreaterThan field is None"
  | f + 1, .Interval l r lo ro =>
      bind2 (simplifiedF B f l) (simplifiedF B f r) fun a b =>
        mkRet (mkInterval a b lo ro)
  | f + 1, .Add l r =>
      bind2 (simplifiedF B f l) (simplifiedF B f r)
        (addSimp B (simplifiedF B f) (.Add l r))
  | f + 1, .Mul l r =>
      bind2 (simplifiedF B f l) (simplifiedF B f r)
        (mulSimp B (simplifiedF B f) (.Mul l r))
  | f + 1, .Fraction p q =>
      bind2 (simplifiedF B f p) (simplifiedF B f q)
        (fracSimp B (simplifiedF B f) (.Fraction p q))
  | f + 1, .Pow b e =>
      bind2 (simplifiedF B f b) (simplifiedF B f e)
        (powSimp B (simplifiedF B f) (.Pow b e))



/-! ### The renderer (`latex()` methods, maths.py lines 238-239, 296-303,
206-207, 353-354, 366-367, 411-433, 549-597, 756-776, 965-982, 1063-1064,
1095-1096, 1141-1142, 343-344).  Literal braces are written with their
escapes. -/

/-- `Add._is_complex_expression` (maths.py lines 411-415): an `Add`, a
`Fraction`, or a `Mul` whose left factor is not `Integer(-1)`. -/
def isComplexExpr : MObj → Bool
  | .Add _ _ => true
  | .Fraction _ _ => true
  | .Mul l _ => !(match l with | .Integer n => decide (n = -1) | _ => false)
  | _ => false

/-- Wrapping of an operand in `\left( \right)` when it is an `Add`
(`Mul.latex`'s complex-operand arms). -/
def parenAdd (m : MObj) (s : String) : String :=
  if isAdd m then "\\left(" ++ s ++ "\\right)" else s

/-- Numeric-coefficient shape `Integer(_) | Decimal(_) | Fraction(_)`. -/
def numShape (m : MObj) : Bool := isInt m || isDec m || isFrac m

/-- Body of `Mul.latex` for a left factor other than `Integer(-1)`
(maths.py lines 553-597), with the operand renderings precomputed. -/
def mulLatexAux (l r : MObj) (lS rS : String) : String :=
  if numShape l && isSym r then
    (if l = .Integer 1 then rS else lS ++ rS)
  else if numShape l && isPow r then
    (if l = .Integer 1 then rS else lS ++ rS)
  else if (isInt l || isDec l) && (isInt r || isDec r) then
    lS ++ " \\times " ++ rS
  else if isFrac l && isFrac r then
    lS ++ " \\times " ++ rS
  else if (isMul l || isAdd l) && (isMul r || isAdd r) then
    parenAdd l lS ++ " \\times " ++ parenAdd r rS
  else if (isFrac l || isAdd l) && (isFrac r || isAdd r) then
    parenAdd l lS ++ " \\times " ++ parenAdd r rS
  else lS ++ rS

/-- Test of `right.startswith("-")` from `Add.latex`: the rendering's first
character is a minus (spelled via the head character so that concrete
renderings evaluate definitionally). -/
def startsDash (s : String) : Bool :=
  match s.toList with
  | c :: _ => c == Char.ofNat 45
  | [] => false

/-- Default tail of `Add.latex` (maths.py lines 427-433): concatenate with
a plus, or directly when the right rendering already starts with `-`. -/
def addLatexTail (left right : String) : String :=
  if startsDash right then left ++ " " ++ right else left ++ " + " ++ right

/-- Rendering of a number for `Decimal.latex` (maths.py lines 296-303).
Integral values print as the bare integer.  For non-integral values Python
prints the float's shortest decimal repr, which this rational model renders
as `num/den`; no claim evaluates that branch. -/
def ratValStr (v : ℚ) : String :=
  if v.den = 1 then toString v.num else toString v.num ++ "/" ++ toString v.den

/-- Body of `Mul.latex` (maths.py lines 549-597) with operand renderings
precomputed: a left factor equal to `Integer(-1)` renders as a unary
minus. -/
def mulLatexOf (l r : MObj) (lS rS : String) : String :=
  if l = .Integer (-1) then "-" ++ rS else mulLatexAux l r lS rS

/-- The `latex()` renderer.  `Decimal.latex` on an invalid field
combination raises in Python; the model returns a marker string (no claim
reaches it). -/
def latexM : MObj → String
  | .Integer n => toString n
  | .Symbol s => s
  | .Decimal p q x =>
      match decimalVal p q x with
      | .ok v => ratValStr v
      | .error _ => "ERROR"
  | .Pi => "\\pi"
  | .Inf => "\\infty"
  | .Add l (.Mul (.Integer n) inner) =>
      if n = -1 && isComplexExpr inner then
        latexM l ++ " - \\left(" ++ latexM inner ++ "\\right)"
      else
        addLatexTail (latexM l) (mulLatexOf (.Integer n) inner (toString n) (latexM inner))
  | .Add l r => addLatexTail (latexM l) (latexM r)
  | .Mul l r => mulLatexOf l r (latexM l) (latexM r)
  | .Fraction (.Integer n) q =>
      if n < 0 then
        "-\\dfrac\x7b" ++ toString (-n) ++ "\x7d\x7b" ++ latexM q ++ "\x7d"
      else "\\dfrac\x7b" ++ toString n ++ "\x7d\x7b" ++ latexM q ++ "\x7d"
  | .Fraction p q => "\\dfrac\x7b" ++ latexM p ++ "\x7d\x7b" ++ latexM q ++ "\x7d"
  | .Pow b e =>
      if (match e with
          | .Fraction (.Integer a) (.Integer c) => a = 1 && c = 2
          | _ => false) then
        "\\sqrt\x7b" ++ latexM b ++ "\x7d"
      else
        (if isAdd b || isMul b || isFrac b then "\\left(" ++ latexM b ++ "\\right)"
         else latexM b) ++ "^\x7b" ++ latexM e ++ "\x7d"
  | .Equality l r => latexM l ++ " = " ++ latexM r
  | .StrictGreaterThan l r => latexM l ++ " > " ++ latexM r
  | .Interval l r _ _ => "\\lbracket " ++ latexM l ++ "; " ++ latexM r ++ "\\rbracket"
  | .Image g pre => g ++ "(" ++ latexM pre ++ ")"



/-! ### Self-description codec: `__repr__` and `MathsObjectParser.from_repr`
(maths.py lines 1280-1382 and the per-class `__repr__` methods).

`from_repr` is `ast.parse` (Python's own parser, an external library)
followed by `_ast_to_maths_object`.  The model works at the AST level:
`PyAst` is the shape of the `ast` node that parsing the repr text yields,
`reprA` produces it directly (the repr text is an unambiguous constructor
call, so its AST is determined by the node — faithful whenever the embedded
names are well-formed, see `strLitOk`/`isIdent`), and `fromReprA` mirrors
`_ast_to_maths_object` together with the constructors' validation. -/

mutual

/-- Python AST shapes occurring in repr output: a constructor call with
keyword arguments, the two-call `Function(name=f)(arg, ...)` idiom, the
literals, and a bare identifier token (`ast.Name`).  The keyword and
positional argument lists are mutual inductives (rather than `List`) so
that the recursion over them is structural. -/
inductive PyAst : Type where
  | call (cls : String) (kwargs : KwArgs)
  | imageCall (fn : PyAst) (args : AstArgs)
  | constInt (n : ℤ)
  | constRat (r : ℚ)
  | constStr (s : String)
  | constBool (b : Bool)
  | constNone
  | nameTok (id : String)

/-- Keyword-argument list of a repr constructor call. -/
inductive KwArgs : Type where
  | nil
  | cons (k : String) (v : PyAst) (rest : KwArgs)

/-- Positional-argument list of the `Function(...)(...)` call idiom. -/
inductive AstArgs : Type where
  | nil
  | cons (v : PyAst) (rest : AstArgs)

end

/-- Values an `_ast_to_maths_object` recursion can produce: a maths node, a
`Function` object, or a Python literal. -/
inductive PyObj : Type where
  | obj (m : MObj)
  | fn (name : String)
  | int (n : ℤ)
  | rat (r : ℚ)
  | str (s : String)
  | bool (b : Bool)
  | pyNone
deriving DecidableEq

/-- Keyword lookup in the parsed kwargs (pydantic ignores extra keys). -/
def kwLookup (kws : List (String × PyObj)) (k : String) : Option PyObj :=
  (kws.find? (fun kv => kv.1 = k)).map Prod.snd

/-- An optional-int constructor field from a parsed keyword value (missing
or `None` → absent). -/
def getOptInt : Option PyObj → Except String (Option ℤ)
  | none => .ok none
  | some .pyNone => .ok none
  | some (.int n) => .ok (some n)
  | some _ => .error "ValidationError: int field"

/-- An optional-float constructor field (an int coerces). -/
def getOptRat : Option PyObj → Except String (Option ℚ)
  | none => .ok none
  | some .pyNone => .ok none
  | some (.rat r) => .ok (some r)
  | some (.int n) => .ok (some (n : ℚ))
  | some _ => .error "ValidationError: float field"

/-- A required node-valued field (`MathsObject`-typed). -/
def getObj : Option PyObj → Except String MObj
  | some (.obj m) => .ok m
  | _ => .error "ValidationError: MathsObject field"

/-- A `Fraction`/`Pow` member field: a raw int is coerced to `Integer`. -/
def getIntOrObj : Option PyObj → Except String MObj
  | some (.int n) => .ok (.Integer n)
  | some (.obj m) => .ok m
  | _ => .error "NotImplementedError: member field"

/-- An optional-bool field with a default (the `Interval` open flags). -/
def getBoolD (v : Option PyObj) (d : Bool) : Except String Bool :=
  match v with
  | none => .ok d
  | some (.bool b) => .ok b
  | some _ => .error "ValidationError: bool field"

/-- Construction of one node class from its parsed keyword arguments,
mirroring `cls(**kwargs)` with each class's validators (maths.py lines
155-161, 192-198, 226-230, 270-285, 711-748, 933-957, 1122-1135). -/
def buildObj (cls : String) (kws : List (String × PyObj)) : Except String PyObj :=
  if cls = "Integer" then
    match kwLookup kws "n" with
    | some (.int n) => .ok (.obj (.Integer n))
    | some _ => .error "ValidationError: Integer.n"
    | none => .error "KeyError: n"
  else if cls = "Symbol" then
    match kwLookup kws "s" with
    | some (.str s) =>
        if s = "" then .error "ValidationError: Symbol name cannot be an empty string"
        else .ok (.obj (.Symbol s))
    | _ => .error "ValidationError: Symbol.s"
  else if cls = "Decimal" then
    match getOptInt (kwLookup kws "p") with
    | .error e => .error e
    | .ok p =>
      match getOptInt (kwLookup kws "q") with
      | .error e => .error e
      | .ok q =>
        match getOptRat (kwLookup kws "x") with
        | .error e => .error e
        | .ok x =>
          match mkDecimal p q x with
          | .error e => .error e
          | .ok d => .ok (.obj d)
  else if cls = "Pi" then .ok (.obj .Pi)
  else if cls = "Inf" then .ok (.obj .Inf)
  else if cls = "Add" then
    match getObj (kwLookup kws "l"), getObj (kwLookup kws "r") with
    | .ok l, .ok r => .ok (.obj (.Add l r))
    | .error e, _ => .error e
    | _, .error e => .error e
  else if cls = "Mul" then
    match getObj (kwLookup kws "l"), getObj (kwLookup kws "r") with
    | .ok l, .ok r => .ok (.obj (.Mul l r))
    | .error e, _ => .error e
    | _, .error e => .error e
  else if cls = "Fraction" then
    match getIntOrObj (kwLookup kws "p"), getIntOrObj (kwLookup kws "q") with
    | .ok p, .ok q =>
        (match mkFraction (some p) (some q) with
         | .error e => .error e
         | .ok fr => .ok (.obj fr))
    | .error e, _ => .error e
    | _, .error e => .error e
  else if cls = "Pow" then
    match getIntOrObj (kwLookup kws "base"), getIntOrObj (kwLookup kws "exp") with
    | .ok b, .ok e => .ok (.obj (.Pow b e))
    | .error e, _ => .error e
    | _, .error e => .error e
  else if cls = "Equality" then
    match getObj (kwLookup kws "l"), getObj (kwLookup kws "r") with
    | .ok l, .ok r => .ok (.obj (.Equality l r))
    | .error e, _ => .error e
    | _, .error e => .error e
  else if cls = "StrictGreaterThan" then
    match getObj (kwLookup kws "l"), getObj (kwLookup kws "r") with
    | .ok l, .ok r => .ok (.obj (.StrictGreaterThan l r))
    | .error e, _ => .error e
    | _, .error e => .error e
  else if cls = "Interval" then
    match getObj (kwLookup kws "l"), getObj (kwLookup kws "r") with
    | .ok l, .ok r =>
        (match getBoolD (kwLookup kws "left_open") false,
               getBoolD (kwLookup kws "right_open") false with
         | .ok lo, .ok ro =>
             (match mkInterval (some l) (some r) lo ro with
              | .error e => .error e
              | .ok iv => .ok (.obj iv))
         | .error e, _ => .error e
         | _, .error e => .error e)
    | .error e, _ => .error e
    | _, .error e => .error e
  else if cls = "Function" then
    match kwLookup kws "name" with
    | some (.str s) =>
        if s = "" then .error "ValidationError: Symbol name cannot be an empty string"
        else .ok (.fn s)
    | _ => .error "ValidationError: Function.name"
  else if cls = "Image" then
    match kwLookup kws "f", kwLookup kws "pre" with
    | some (.fn g), some (.obj pre) => .ok (.obj (.Image g pre))
    | _, _ => .error "ValidationError: Image fields"
  else .error "ValueError: Unknown MathsObject class"

mutual

/-- `_ast_to_maths_object` (maths.py lines 1301-1382) together with
construction: calls build a node through `buildObj`; the nested-call idiom
builds an `Image` (arity above 1 would build a `MathsCollection`, which is
outside this model); literals map to themselves; a bare `ast.Name` only
resolves `None`/`True`/`False` (the parser's `Function(name=f)` special
case is keyed on the class name in `parseKws`). -/
def fromReprA : PyAst → Except String PyObj
  | .constInt n => .ok (.int n)
  | .constRat r => .ok (.rat r)
  | .constStr s => .ok (.str s)
  | .constBool b => .ok (.bool b)
  | .constNone => .ok .pyNone
  | .nameTok id =>
      if id = "None" then .ok .pyNone
      else if id = "True" then .ok (.bool true)
      else if id = "False" then .ok (.bool false)
      else .error "ValueError: Unsupported AST node type"
  | .call cls kwargs =>
      (match parseKws kwargs cls with
       | .error e => .error e
       | .ok kws => buildObj cls kws)
  | .imageCall g args =>
      (match fromReprA g with
       | .error e => .error e
       | .ok fo =>
           (match fromReprArg args with
            | .error e => .error e
            | .ok pv =>
                (match fo, pv with
                 | .fn g, .obj pre => .ok (.obj (.Image g pre))
                 | .fn _, _ => .error "ValidationError: Image pre"
                 | _, _ => .error "ValidationError: Image f")))
termination_by structural a => a

/-- The single positional argument of the `Function(...)(pre)` idiom: the
source converts it when `len(node.args) == 1`, any other arity builds a
`MathsCollection`, which is outside this model. -/
def fromReprArg : AstArgs → Except String PyObj
  | .cons a .nil => fromReprA a
  | _ => .error "model: MathsCollection arity outside scope"
termination_by structural a => a

/-- Keyword processing of `_ast_to_maths_object`: each value is recursively
converted, except that `Function(name=<Name>)` takes the identifier as a
string. -/
def parseKws : KwArgs → String → Except String (List (String × PyObj))
  | .nil, _ => .ok []
  | .cons k v rest, cls =>
      match (if cls = "Function" ∧ k = "name" then
               match v with
               | .nameTok id => .ok (.str id)
               | other => fromReprA other
             else fromReprA v) with
      | .error e => .error e
      | .ok pv =>
          (match parseKws rest cls with
           | .error e => .error e
           | .ok prest => .ok ((k, pv) :: prest))
termination_by structural a => a

end



/-! ### Term collector, `group_terms` (maths.py lines 1155-1267)

The collector is glue around backend (sympy) operations: flatten/expand the
tree's backend expression, read off `degree` and `coeff(symbol, power)` for
each power, rebuild `sp.Add(*terms, evaluate=False)` in descending order
and translate back through `from_sympy`.  The backend operations are
modelled on their specified domain (spec §4.5/§6): a polynomial in one
symbol over the rationals, represented as a coefficient list
(index = power, trailing zeros trimmed).  Outside that domain — or when
the backend raises (e.g. `sp.degree(0) = -∞` breaking the `range`) — the
source's `except` arm returns the input unchanged, which the model's
`none`/zero cases mirror. -/

/-- Polynomials in one symbol as coefficient lists (index = degree). -/
abbrev PolyQ := List ℚ

/-- Removal of trailing zero coefficients (canonical form). -/
def ptrim (p : PolyQ) : PolyQ := (p.reverse.dropWhile (fun c => c = 0)).reverse

/-- Pointwise sum before trimming. -/
def paddRaw : PolyQ → PolyQ → PolyQ
  | [], b => b
  | a, [] => a
  | a :: as, b :: bs => (a + b) :: paddRaw as bs

/-- Polynomial sum. -/
def padd (a b : PolyQ) : PolyQ := ptrim (paddRaw a b)

/-- Scalar multiple. -/
def psmul (c : ℚ) (p : PolyQ) : PolyQ := ptrim (p.map (fun a => c * a))

/-- Polynomial product. -/
def pmul : PolyQ → PolyQ → PolyQ
  | [], _ => []
  | a :: as, b => padd (psmul a b) (0 :: pmul as b)

/-- Polynomial power. -/
def ppow (p : PolyQ) : ℕ → PolyQ
  | 0 => [1]
  | k + 1 => pmul p (ppow p k)

/-- Constant polynomial. -/
def pconst (c : ℚ) : PolyQ := if c = 0 then [] else [c]

/-- The symbol itself. -/
def pX : PolyQ := [0, 1]

/-- The monomial `c · X^k`. -/
def monom (c : ℚ) (k : ℕ) : PolyQ := List.replicate k 0 ++ [c]

/-- Evaluation at a point. -/
def pevalQ (p : PolyQ) (v : ℚ) : ℚ := p.foldr (fun c acc => c + v * acc) 0

/-- Modelled from the spec: the backend's `completely_flatten`/`sp.expand`
of a tree's backend expression, on the domain of polynomial trees in the
single symbol `sym` — the spec's Backend Adapter contract (§6) provides
`degree`/`coefficient` extraction over exactly this domain.  `none`
abstains: the tree is not a polynomial in `sym` over `ℚ` (other symbols,
`Pi`, non-constant denominators, non-integer exponents, relations), and the
run is settled only for trees where the model is defined. -/
def toPoly (sym : String) : MObj → Option PolyQ
  | .Integer n => some (pconst (n : ℚ))
  | .Decimal p q x =>
      match decimalVal p q x with
      | .ok v => some (pconst v)
      | .error _ => none
  | .Symbol s => if s = sym then some pX else none
  | .Add l r =>
      match toPoly sym l, toPoly sym r with
      | some a, some b => some (padd a b)
      | _, _ => none
  | .Mul l r =>
      match toPoly sym l, toPoly sym r with
      | some a, some b => some (pmul a b)
      | _, _ => none
  | .Fraction p q =>
      match toPoly sym p, toPoly sym q with
      | some a, some [c] => some (psmul c⁻¹ a)
      | _, _ => none
  | .Pow b e =>
      match toPoly sym b, toPoly sym e with
      | some _, some [] => some [1]
      | some a, some [c] => if c.den = 1 ∧ 0 ≤ c.num then some (ppow a c.num.toNat) else none
      | _, _ => none
  | _ => none

/-- The tree `from_sympy` produces for one rational coefficient
(`sp.Integer` or `sp.Rational`, maths.py lines 1396-1400). -/
def ratTree (c : ℚ) : MObj :=
  if c.den = 1 then .Integer c.num else .Fraction (.Integer c.num) (.Integer (c.den : ℤ))

/-- The tree `from_sympy` produces for one collected term `coeff * sym **
power` (maths.py lines 1243-1249 build the sympy term; a unit coefficient
evaluates away, a first power drops the exponent). -/
def coeffTerm (sym : String) (c : ℚ) (k : ℕ) : MObj :=
  if k = 0 then ratTree c
  else
    let xk : MObj := if k = 1 then .Symbol sym else .Pow (.Symbol sym) (.Integer (k : ℤ))
    if c = 1 then xk else .Mul (ratTree c) xk

/-- The right-nested `Add` chain `from_sympy` produces from
`sp.Add(*terms, evaluate=False)` (maths.py lines 1405-1419); a single term
is the term itself. -/
def rebuildTerms (sym : String) : List (ℚ × ℕ) → MObj
  | [] => .Integer 0
  | [t] => coeffTerm sym t.1 t.2
  | t :: rest => .Add (coeffTerm sym t.1 t.2) (rebuildTerms sym rest)

/-- Nonzero coefficients of the reversed coefficient list, highest power
first (the source iterates `range(max_degree + 1)`, keeps nonzero
coefficients and rebuilds over `sorted(..., reverse=True)`). -/
def extractRev : List ℚ → List (ℚ × ℕ)
  | [] => []
  | c :: rest => if c = 0 then extractRev rest else (c, rest.length) :: extractRev rest

/-- Collected (coefficient, power) pairs in descending power order. -/
def extractCoeffs (P : PolyQ) : List (ℚ × ℕ) := extractRev P.reverse

/-- `group_terms(expr, symbol)` (maths.py lines 1155-1267) for the
single-symbol path: expand to a polynomial, extract the per-power
coefficients, rebuild descending.  A failure anywhere (`none`) and the
zero polynomial (whose `sp.degree` is `-∞`, breaking `range(max_degree +
1)`) land in the `except` arm, which returns the input unchanged. -/
def groupTermsM (sym : String) (e : MObj) : MObj :=
  match toPoly sym e with
  | none => e
  | some [] => e
  | some P => rebuildTerms sym (extractCoeffs P)

/-- Numeric value of a tree at `sym := v` (the sympy `subs`-then-evaluate
check used by the repository's tests; `none` where the value is undefined
in the rational model). -/
def denoteAt (sym : String) (v : ℚ) : MObj → Option ℚ
  | .Integer n => some (n : ℚ)
  | .Decimal p q x => (decimalVal p q x).toOption
  | .Symbol s => if s = sym then some v else none
  | .Add l r =>
      match denoteAt sym v l, denoteAt sym v r with
      | some a, some b => some (a + b)
      | _, _ => none
  | .Mul l r =>
      match denoteAt sym v l, denoteAt sym v r with
      | some a, some b => some (a * b)
      | _, _ => none
  | .Fraction p q =>
      match denoteAt sym v p, denoteAt sym v q with
      | some a, some b => if b = 0 then none else some (a / b)
      | _, _ => none
  | .Pow b e =>
      match denoteAt sym v b, denoteAt sym v e with
      | some a, some k => if k.den = 1 ∧ 0 ≤ k.num then some (a ^ k.num.toNat) else none
      | _, _ => none
  | _ => none



/-! ### Scope of the string-level repr fidelity

`reprA` works at the AST level; the repr TEXT re-parses to that AST exactly
when the embedded strings are unproblematic: a `Symbol`'s content is
emitted inside single quotes (so quotes, backslashes and newlines would
break the literal), and a `Function` name is emitted bare (so it must be a
plain identifier).  `goodM` also captures the constructor invariants (the
node is buildable at all) and the strict single-form `Decimal` shapes that
round-trip. -/

/-- The claim's concrete binomial product
`(Integer(3)*Symbol("x") + Integer(-8)) * (Integer(4)*Symbol("x") + Integer(-1))`. -/
def expr5 : MObj :=
  .Mul (.Add (.Mul (.Integer 3) (.Symbol "x")) (.Integer (-8)))
       (.Add (.Mul (.Integer 4) (.Symbol "x")) (.Integer (-1)))

/-- The tree `expr5.simplified()` produces under the inert backend: the
four FOIL products re-associated by the `Add` numeric-tail rule. -/
def foilResult5 : MObj :=
  .Add (.Add (.Mul (.Mul (.Integer 3) (.Symbol "x")) (.Mul (.Integer 4) (.Symbol "x")))
             (.Mul (.Integer (-3)) (.Symbol "x")))
       (.Add (.Mul (.Integer (-32)) (.Symbol "x")) (.Integer 8))

/-! ## Claims -/

/-- C10: double negation is the identity under the shape precondition: for
every node `x` that is not a `Mul` whose left factor is `Integer(-1)`,
`-(-x)` is structurally `x` — an `Integer`'s `n` is sign-flipped twice, any
other such node is wrapped in `Mul(Integer(-1), ·)` and then unwrapped. -/
theorem c10_double_negation (x : MObj) (h : isNegOneMul x = false) :
    negM (negM x) = x := by
  cases x
  case Integer n => simp [negM]
  case Mul l r =>
    have hl : l ≠ .Integer (-1) := by
      intro he; subst he; simp [isNegOneMul] at h
    simp [negM, hl]
  all_goals simp [negM]

/-- C10 witness: the double negation identity evaluated on `Symbol("u")`. -/
theorem c10_double_negation_witness :
    isNegOneMul (.Symbol "u") = false ∧ negM (negM (.Symbol "u")) = .Symbol "u" :=
  ⟨by decide, c10_double_negation (.Symbol "u") (by decide)⟩

/-- C6 counterexample: `Decimal(p=3, x=1.5)` — the `x` form together with
`p` alone — is accepted by `compute_sympy_expr` (the all-three check fails,
the pair check fails, the `x` check succeeds), although the claim says
every mixed combination fails validation. -/
theorem c6_mixed_form_accepted :
    mkDecimal (some 3) none (some (3 / 2)) = .ok (.Decimal (some 3) none (some (3 / 2))) :=
  rfl

/-- C6 amended: `Decimal` construction succeeds precisely when not all
three of `p`, `q`, `x` are supplied and either the complete `p`/`q` pair is
supplied (with `q ≠ 0`, since `sp.Rational` rejects a zero denominator) or
the pair is incomplete and `x` is supplied — `x` then wins even alongside a
partial `p` or `q`. -/
theorem c6_decimal_construction_iff (p q : Option ℤ) (x : Option ℚ) :
    (∃ m, mkDecimal p q x = .ok m) ↔
      (¬(p.isSome = true ∧ q.isSome = true ∧ x.isSome = true) ∧
        ((p.isSome = true ∧ q.isSome = true ∧ q ≠ some 0) ∨
         (¬(p.isSome = true ∧ q.isSome = true) ∧ x.isSome = true))) := by
  rcases p with _ | a <;> rcases q with _ | b <;> rcases x with _ | xv <;>
    simp [mkDecimal]
  all_goals by_cases hb : b = 0 <;> simp [hb]

/-- C8 (code bug): `Add.latex` renders `Add(Symbol("x"), Mul(Integer(-1),
Integer(-5)))` as `"x --5"` — a doubled minus for a non-complex negated
inner node, exactly the `x --5` shape the source's own comment says the
`Mul(Integer(-1), ·)` case prevents; the spec's concrete complex case does
render with the single parenthesised minus. -/
theorem c8_add_latex_double_minus :
    latexM (.Add (.Symbol "x") (.Mul (.Integer (-1)) (.Integer (-5)))) = "x --5" ∧
    latexM (.Add (.Symbol "x") (.Mul (.Integer (-1))
        (.Add (.Integer (-8))
          (.Fraction (.Integer 1)
            (.Pow (.Integer 8) (.Fraction (.Integer 1) (.Integer 2))))))) =
      "x - \\left(-8 + \\dfrac\x7b1\x7d\x7b\\sqrt\x7b8\x7d\x7d\\right)" := by
  constructor <;> rfl

/-- C7 counterexample: `Pow(Integer(0), Integer(-1)).simplified()` does not
return the claimed reciprocal `Fraction` — building `Fraction(p=Integer(1),
q=Integer(0))` trips the denominator validator and raises. -/
theorem c7_pow_zero_base_raises :
    simplifiedF B0 2 (.Pow (.Integer 0) (.Integer (-1))) =
      .raised "ValueError: Denominator cannot be zero" := by decide

/-- C7 amended: for a simplified exponent `Integer(-1)` and a simplified
base other than the zero atom, the result is `Fraction(1, base)`; for
integer base `n1 ≠ 0` and integer exponent `n2 < -1`, the result is
`Fraction(1, n1^(-n2))`; `Pow(10, -2)` simplifies to `Fraction(1, 100)`
whose `as_decimal` evaluates to `0.01`. -/
theorem c7_negative_exponent_amended :
    (∀ (B : Backend) (f : ℕ) (b e bs : MObj),
        simplifiedF B f b = .val (some bs) →
        simplifiedF B f e = .val (some (.Integer (-1))) →
        bs ≠ .Integer 0 →
        simplifiedF B (f + 1) (.Pow b e) = .val (some (.Fraction (.Integer 1) bs))) ∧
    (∀ (B : Backend) (f : ℕ) (b e : MObj) (n1 n2 : ℤ),
        simplifiedF B f b = .val (some (.Integer n1)) →
        simplifiedF B f e = .val (some (.Integer n2)) →
        n2 < -1 → n1 ≠ 0 →
        simplifiedF B (f + 1) (.Pow b e) =
          .val (some (.Fraction (.Integer 1) (.Integer (n1 ^ (-n2).toNat))))) ∧
    simplifiedF B0 2 (.Pow (.Integer 10) (.Integer (-2))) =
      .val (some (.Fraction (.Integer 1) (.Integer 100))) ∧
    (asDecimal (.Fraction (.Integer 1) (.Integer 100))).bind evalM = .ok (1 / 100 : ℚ) := by
  refine ⟨?_, ?_, by decide, ?asdec⟩
  case asdec =>
    simp only [asDecimal, evalM, decimalVal, mkDecimal, pyDiv, Except.bind]
    norm_num [evalM, decimalVal, pyDiv]
  · intro B f b e bs hb he hbs
    show bind2 (simplifiedF B f b) (simplifiedF B f e)
      (powSimp B (simplifiedF B f) (.Pow b e)) = _
    rw [hb, he]
    show powSimp B (simplifiedF B f) (.Pow b e) (some bs) (some (.Integer (-1))) = _
    simp [powSimp, powRules, firstSome, powArm1, mkRet, mkBind, mkFraction, hbs]
  · intro B f b e n1 n2 hb he hn2 hn1
    have h1 : n2 ≠ -1 := by omega
    have h3 : n2 < 0 := by omega
    have h2 : n1 ^ (-n2).toNat ≠ 0 := pow_ne_zero _ hn1
    show bind2 (simplifiedF B f b) (simplifiedF B f e)
      (powSimp B (simplifiedF B f) (.Pow b e)) = _
    rw [hb, he]
    show powSimp B (simplifiedF B f) (.Pow b e)
      (some (.Integer n1)) (some (.Integer n2)) = _
    simp [powSimp, powRules, firstSome, powArm1, powArm2, h1, h3, mkRet, mkBind,
      mkFraction, h2]

/-- C7 amended witness: the two general rules evaluated at `Pi^(-1)` and
`2^(-3)`. -/
theorem c7_negative_exponent_amended_witness :
    simplifiedF B0 2 (.Pow .Pi (.Integer (-1))) =
      .val (some (.Fraction (.Integer 1) .Pi)) ∧
    simplifiedF B0 2 (.Pow (.Integer 2) (.Integer (-3))) =
      .val (some (.Fraction (.Integer 1) (.Integer 8))) := by
  constructor
  · exact c7_negative_exponent_amended.1 B0 1 .Pi (.Integer (-1)) .Pi (by decide)
      (by decide) (by decide)
  · have h := c7_negative_exponent_amended.2.1 B0 1 (.Integer 2) (.Integer (-3)) 2 (-3)
      (by decide) (by decide) (by decide) (by decide)
    norm_num at h
    exact h



/-- Composition law of the polynomial model along `Add`. -/
theorem toPoly_add (sym : String) {l r : MObj} {a b : PolyQ}
    (hl : toPoly sym l = some a) (hr : toPoly sym r = some b) :
    toPoly sym (.Add l r) = some (padd a b) := by
  simp [toPoly, hl, hr]

/-- Composition law of the polynomial model along `Mul`. -/
theorem toPoly_mul (sym : String) {l r : MObj} {a b : PolyQ}
    (hl : toPoly sym l = some a) (hr : toPoly sym r = some b) :
    toPoly sym (.Mul l r) = some (pmul a b) := by
  simp [toPoly, hl, hr]

set_option maxRecDepth 4000 in
/-- C5: every `Mul` whose two simplified operands are both `Add` nodes
dispatches to the core FOIL expansion `foilExpand` (never the backend
fallback), and the claim's concrete product, simplified and then collected
on `x`, evaluates at `x = 0, 1, 2` to `8, -15, -14`. -/
theorem c5_foil_expansion :
    (∀ (B : Backend) (f : ℕ) (l r l1 r1 l2 r2 : MObj),
        simplifiedF B f l = .val (some (.Add l1 r1)) →
        simplifiedF B f r = .val (some (.Add l2 r2)) →
        simplifiedF B (f + 1) (.Mul l r) = foilExpand (simplifiedF B f) l1 r1 l2 r2) ∧
    simplifiedF B0 12 expr5 = .val (some foilResult5) ∧
    denoteAt "x" 0 (groupTermsM "x" foilResult5) = some 8 ∧
    denoteAt "x" 1 (groupTermsM "x" foilResult5) = some (-15) ∧
    denoteAt "x" 2 (groupTermsM "x" foilResult5) = some (-14) := by
  have t1 : toPoly "x" (.Mul (.Integer 3) (.Symbol "x")) = some [0, 3] := by
    norm_num [toPoly, pconst, pX, pmul, psmul, padd, paddRaw, ptrim, List.dropWhile]
  have t2 : toPoly "x" (.Mul (.Integer 4) (.Symbol "x")) = some [0, 4] := by
    norm_num [toPoly, pconst, pX, pmul, psmul, padd, paddRaw, ptrim, List.dropWhile]
  have t3 : toPoly "x" (.Mul (.Mul (.Integer 3) (.Symbol "x"))
      (.Mul (.Integer 4) (.Symbol "x"))) = some [0, 0, 12] := by
    rw [toPoly_mul "x" t1 t2]
    norm_num [pmul, psmul, padd, paddRaw, ptrim, List.dropWhile]
  have t4 : toPoly "x" (.Mul (.Integer (-3)) (.Symbol "x")) = some [0, -3] := by
    norm_num [toPoly, pconst, pX, pmul, psmul, padd, paddRaw, ptrim, List.dropWhile]
  have t5 : toPoly "x" (.Mul (.Integer (-32)) (.Symbol "x")) = some [0, -32] := by
    norm_num [toPoly, pconst, pX, pmul, psmul, padd, paddRaw, ptrim, List.dropWhile]
  have t6 : toPoly "x" (.Add (.Mul (.Mul (.Integer 3) (.Symbol "x"))
      (.Mul (.Integer 4) (.Symbol "x"))) (.Mul (.Integer (-3)) (.Symbol "x"))) =
      some [0, -3, 12] := by
    rw [toPoly_add "x" t3 t4]
    norm_num [padd, paddRaw, ptrim, List.dropWhile]
  have t0 : toPoly "x" (.Integer 8) = some [8] := by
    norm_num [toPoly, pconst]
  have t7 : toPoly "x" (.Add (.Mul (.Integer (-32)) (.Symbol "x")) (.Integer 8)) =
      some [8, -32] := by
    rw [toPoly_add "x" t5 t0]
    norm_num [padd, paddRaw, ptrim, List.dropWhile]
  have t8 : toPoly "x" foilResult5 = some [8, -35, 12] := by
    show toPoly "x" (.Add _ _) = _
    rw [toPoly_add "x" t6 t7]
    norm_num [padd, paddRaw, ptrim, List.dropWhile]
  have hg : groupTermsM "x" foilResult5 =
      .Add (.Mul (.Integer 12) (.Pow (.Symbol "x") (.Integer 2)))
           (.Add (.Mul (.Integer (-35)) (.Symbol "x")) (.Integer 8)) := by
    simp only [groupTermsM, t8]
    norm_num [extractCoeffs, extractRev, rebuildTerms, coeffTerm, ratTree]
  refine ⟨?_, by decide, ?_, ?_, ?_⟩
  · intro B f l r l1 r1 l2 r2 hl hr
    show bind2 (simplifiedF B f l) (simplifiedF B f r)
      (mulSimp B (simplifiedF B f) (.Mul l r)) = _
    rw [hl, hr]
    rfl
  all_goals rw [hg]; norm_num [denoteAt]; try simp only [show Int.toNat 2 = 2 from rfl]; norm_num

/-- C5 witness: the FOIL dispatch applied at the claim's own product. -/
theorem c5_foil_expansion_witness :
    simplifiedF B0 12 expr5 =
      foilExpand (simplifiedF B0 11)
        (.Mul (.Integer 3) (.Symbol "x")) (.Integer (-8))
        (.Mul (.Integer 4) (.Symbol "x")) (.Integer (-1)) := by
  exact c5_foil_expansion.1 B0 11 (.Add (.Mul (.Integer 3) (.Symbol "x")) (.Integer (-8)))
    (.Add (.Mul (.Integer 4) (.Symbol "x")) (.Integer (-1)))
    (.Mul (.Integer 3) (.Symbol "x")) (.Integer (-8))
    (.Mul (.Integer 4) (.Symbol "x")) (.Integer (-1)) (by decide) (by decide)


theorem ptrim_append_ne {c : ℚ} (hc : c ≠ 0) (x : List ℚ) :
    ptrim (x ++ [c]) = x ++ [c] := by
  simp [ptrim, List.dropWhile_cons, hc]

theorem ptrim_append_zero (x : List ℚ) : ptrim (x ++ [(0:ℚ)]) = ptrim x := by
  simp [ptrim, List.dropWhile_cons]

theorem ptrim_replicate (n : ℕ) : ptrim (List.replicate n (0:ℚ)) = [] := by
  simp [ptrim, List.dropWhile_eq_nil_iff, List.eq_of_mem_replicate]

theorem dropWhile_dropWhile {α : Type} (p : α → Bool) (l : List α) :
    (l.dropWhile p).dropWhile p = l.dropWhile p := by
  induction l with
  | nil => rfl
  | cons a t ih =>
      by_cases h : p a = true
      · simpa [List.dropWhile_cons, h] using ih
      · simp [List.dropWhile_cons, h]

theorem ptrim_idem (p : PolyQ) : ptrim (ptrim p) = ptrim p := by
  simp [ptrim, dropWhile_dropWhile]

theorem ptrim_restore (x : List ℚ) :
    ptrim x ++ List.replicate (x.length - (ptrim x).length) 0 = x := by
  have hsplit := List.takeWhile_append_dropWhile (fun c : ℚ => c = 0) x.reverse
  have htw : x.reverse.takeWhile (fun c : ℚ => c = 0) =
      List.replicate (x.reverse.takeWhile (fun c : ℚ => c = 0)).length 0 := by
    refine List.eq_replicate_of_mem ?_
    intro b hb
    simpa using List.mem_takeWhile_imp hb
  have hx : x = ptrim x ++ (x.reverse.takeWhile (fun c : ℚ => c = 0)).reverse := by
    conv_lhs => rw [← List.reverse_reverse x, ← hsplit]
    simp [ptrim]
    rw [← List.reverse_append, hsplit, List.reverse_reverse]
  have hlen : (x.reverse.takeWhile (fun c : ℚ => c = 0)).length =
      x.length - (ptrim x).length := by
    have := congrArg List.length hx
    simp at this
    omega
  rw [← hlen]
  conv_rhs => rw [hx]
  rw [htw]
  simp

theorem ptrim_length_le (x : List ℚ) : (ptrim x).length ≤ x.length := by
  have := congrArg List.length (ptrim_restore x)
  simp at this
  omega

theorem paddRaw_nil_right (a : PolyQ) : paddRaw a [] = a := by
  cases a <;> rfl

theorem paddRaw_monomZ {q : List ℚ} {n : ℕ} {c : ℚ} (h : q.length ≤ n) :
    paddRaw (List.replicate n 0 ++ [c]) q =
      (q ++ List.replicate (n - q.length) 0) ++ [c] := by
  induction q generalizing n with
  | nil => simp [paddRaw_nil_right]
  | cons a t ih =>
      cases n with
      | zero => simp at h
      | succ m =>
          have ht : t.length ≤ m := by simpa using h
          simp only [List.replicate_succ, List.cons_append, List.append_eq, paddRaw,
            zero_add]
          rw [ih ht]
          simp [Nat.succ_sub_succ]

theorem monom_eq (c : ℚ) (k : ℕ) : monom c k = List.replicate k 0 ++ [c] := rfl

theorem ptrim_monom {c : ℚ} (hc : c ≠ 0) (k : ℕ) : ptrim (monom c k) = monom c k :=
  ptrim_append_ne hc _

theorem psmul_monom {a c : ℚ} (h : a * c ≠ 0) (k : ℕ) :
    psmul a (monom c k) = monom (a * c) k := by
  simp only [psmul, monom_eq, List.map_append, List.map_replicate, mul_zero,
    List.map_cons, List.map_nil]
  exact ptrim_append_ne h _

theorem psmul_zero_left (p : PolyQ) : psmul 0 p = [] := by
  have hz : ∀ b ∈ p.map (fun a => (0:ℚ) * a), b = 0 := by
    intro b hb
    simp only [List.mem_map] at hb
    obtain ⟨a, ha, hab⟩ := hb
    rw [← hab, zero_mul]
  have hmap := List.eq_replicate_of_mem hz
  simp only [List.length_map] at hmap
  simp [psmul, hmap, ptrim_replicate]

theorem padd_single_zero {p : PolyQ} (h : ptrim p = p) : padd p [0] = p := by
  cases p with
  | nil => simp [padd, paddRaw, ptrim, List.dropWhile]
  | cons a t =>
      show ptrim (paddRaw (a :: t) [0]) = a :: t
      simp only [paddRaw, add_zero, paddRaw_nil_right]
      exact h

theorem pmul_single (a : ℚ) (p : PolyQ) : pmul [a] p = psmul a p := by
  show padd (psmul a p) (0 :: pmul [] p) = psmul a p
  simp only [pmul]
  exact padd_single_zero (ptrim_idem _)

theorem psmul_one (p : PolyQ) : psmul 1 p = ptrim p := by
  simp [psmul, one_mul]

theorem ptrim_single {c : ℚ} (hc : c ≠ 0) : ptrim [c] = [c] :=
  ptrim_append_ne hc []

theorem ppow_pX (k : ℕ) : ppow pX k = monom 1 k := by
  induction k with
  | zero => rfl
  | succ m ih =>
      show pmul pX (ppow pX m) = monom 1 (m + 1)
      rw [ih]
      show padd (psmul 0 (monom 1 m)) (0 :: pmul [1] (monom 1 m)) = monom 1 (m + 1)
      rw [psmul_zero_left, pmul_single, psmul_one, ptrim_monom one_ne_zero]
      show ptrim (paddRaw [] ((0:ℚ) :: monom 1 m)) = monom 1 (m + 1)
      have hm : (0:ℚ) :: monom 1 m = monom 1 (m + 1) := by
        simp [monom_eq, List.replicate_succ]
      show ptrim ((0:ℚ) :: monom 1 m) = monom 1 (m + 1)
      rw [hm, ptrim_monom one_ne_zero]

theorem pconst_ne {c : ℚ} (hc : c ≠ 0) : pconst c = [c] := by simp [pconst, hc]

theorem toPoly_ratTree (sym : String) {c : ℚ} (hc : c ≠ 0) :
    toPoly sym (ratTree c) = some [c] := by
  by_cases hd : c.den = 1
  · have hnum : (c.num : ℚ) = c := by
      conv_rhs => rw [← Rat.num_div_den c]
      rw [hd]
      simp
    simp [ratTree, hd, toPoly, hnum, pconst_ne hc]
  · have hd0 : ((c.den : ℤ) : ℚ) ≠ 0 := by
      simp [c.den_nz]
    have hn0 : (c.num : ℚ) ≠ 0 := by
      simpa using Rat.num_ne_zero.mpr hc
    have hval : (((c.den : ℤ) : ℚ))⁻¹ * (c.num : ℚ) = c := by
      rw [inv_mul_eq_div]
      push_cast
      exact Rat.num_div_den c
    simp only [ratTree, hd, if_false, toPoly, pconst_ne hn0, pconst_ne hd0]
    simp only [psmul, List.map_cons, List.map_nil, hval]
    rw [ptrim_single hc]

theorem toPoly_symPow (sym : String) {k : ℕ} (hk : k ≠ 0) :
    toPoly sym (if k = 1 then MObj.Symbol sym
                else .Pow (.Symbol sym) (.Integer (k : ℤ))) = some (monom 1 k) := by
  by_cases h1 : k = 1
  · subst h1
    simp [toPoly, pX, monom_eq]
  · have hkq : ((k : ℤ) : ℚ) ≠ 0 := by
      simpa using hk
    simp only [h1, if_false, toPoly, pconst_ne hkq]
    simp [Rat.den_intCast, Rat.num_intCast, ppow_pX]

theorem toPoly_coeffTerm (sym : String) {c : ℚ} (hc : c ≠ 0) (k : ℕ) :
    toPoly sym (coeffTerm sym c k) = some (monom c k) := by
  by_cases hk : k = 0
  · subst hk
    show toPoly sym (ratTree c) = some (monom c 0)
    simpa [monom_eq] using toPoly_ratTree sym hc
  · by_cases h1 : c = 1
    · subst h1
      simp only [coeffTerm, if_neg hk, if_pos rfl]
      exact toPoly_symPow sym hk
    · simp only [coeffTerm, if_neg hk, if_neg h1]
      rw [toPoly]
      rw [toPoly_ratTree sym hc, toPoly_symPow sym hk]
      show some (pmul [c] (monom 1 k)) = some (monom c k)
      rw [pmul_single, psmul_monom (by simpa using hc) k, mul_one]

theorem ptrim_pconst (c : ℚ) : ptrim (pconst c) = pconst c := by
  by_cases hc : c = 0
  · subst hc; simp [pconst, ptrim]
  · rw [pconst_ne hc]; exact ptrim_single hc

theorem ptrim_pX : ptrim pX = pX := ptrim_append_ne one_ne_zero [0]

theorem pmul_trimmed (a b : PolyQ) : ptrim (pmul a b) = pmul a b := by
  cases a with
  | nil => rfl
  | cons x xs =>
      simp only [pmul, padd]
      exact ptrim_idem _

theorem ppow_trimmed (p : PolyQ) (k : ℕ) : ptrim (ppow p k) = ppow p k := by
  cases k with
  | zero => exact ptrim_single one_ne_zero
  | succ m => exact pmul_trimmed _ _

theorem toPoly_trimmed (sym : String) (m : MObj) {P : PolyQ}
    (h : toPoly sym m = some P) : ptrim P = P := by
  cases m with
  | Integer n =>
      simp only [toPoly, Option.some.injEq] at h
      rw [← h]; exact ptrim_pconst _
  | Decimal p q x =>
      simp only [toPoly] at h
      split at h
      · simp only [Option.some.injEq] at h
        rw [← h]; exact ptrim_pconst _
      · exact absurd h (by simp)
  | Symbol s =>
      simp only [toPoly] at h
      split at h
      · simp only [Option.some.injEq] at h
        rw [← h]; exact ptrim_pX
      · exact absurd h (by simp)
  | Add l r =>
      simp only [toPoly] at h
      split at h
      · simp only [Option.some.injEq] at h
        rw [← h]; exact ptrim_idem _
      · exact absurd h (by simp)
  | Mul l r =>
      simp only [toPoly] at h
      split at h
      · simp only [Option.some.injEq] at h
        rw [← h]; exact pmul_trimmed _ _
      · exact absurd h (by simp)
  | Fraction p q =>
      simp only [toPoly] at h
      split at h
      · simp only [Option.some.injEq] at h
        rw [← h]; exact ptrim_idem _
      · exact absurd h (by simp)
  | Pow b e =>
      simp only [toPoly] at h
      split at h
      · simp only [Option.some.injEq] at h
        rw [← h]; exact ptrim_single one_ne_zero
      · split at h
        · simp only [Option.some.injEq] at h
          rw [← h]; exact ppow_trimmed _ _
        · exact absurd h (by simp)
      · exact absurd h (by simp)
  | Pi => exact absurd h (by simp [toPoly])
  | Inf => exact absurd h (by simp [toPoly])
  | Equality l r => exact absurd h (by simp [toPoly])
  | StrictGreaterThan l r => exact absurd h (by simp [toPoly])
  | Interval l r lo ro => exact absurd h (by simp [toPoly])
  | Image g pre => exact absurd h (by simp [toPoly])

theorem extractRev_nil_all_zero : ∀ {r : List ℚ}, extractRev r = [] →
    r = List.replicate r.length 0 := by
  intro r
  induction r with
  | nil => intro _; rfl
  | cons a t ih =>
      intro h
      rw [extractRev] at h
      by_cases ha : a = 0
      · rw [if_pos ha] at h
        rw [List.length_cons, List.replicate_succ, ha]
        exact congrArg (fun l => (0:ℚ) :: l) (ih h)
      · rw [if_neg ha] at h
        exact absurd h (by simp)

theorem padd_monom_trimmed {c : ℚ} (hc : c ≠ 0) (x : List ℚ) :
    padd (monom c x.length) (ptrim x) = ptrim (x ++ [c]) := by
  have hres := ptrim_restore x
  have hlen : (ptrim x).length ≤ x.length := ptrim_length_le x
  rw [padd, monom_eq, paddRaw_monomZ hlen, ptrim_append_ne hc, ptrim_append_ne hc,
    hres]

theorem toPoly_rebuild (sym : String) : ∀ l : List ℚ,
    toPoly sym (rebuildTerms sym (extractRev l)) = some (ptrim l.reverse) := by
  intro l
  induction l with
  | nil => simp [extractRev, rebuildTerms, toPoly, pconst, ptrim]
  | cons c rest ih =>
      by_cases hc : c = 0
      · subst hc
        rw [extractRev, if_pos rfl, List.reverse_cons, ptrim_append_zero]
        exact ih
      · rw [extractRev, if_neg hc]
        rcases hrest : extractRev rest with _ | ⟨t, ts⟩
        · have hz := extractRev_nil_all_zero hrest
          show toPoly sym (coeffTerm sym c rest.length) = some (ptrim (c :: rest).reverse)
          rw [toPoly_coeffTerm sym hc, List.reverse_cons, ptrim_append_ne hc, monom_eq]
          congr 1
          conv_rhs => rw [hz, List.reverse_replicate]
        · show toPoly sym (.Add (coeffTerm sym c rest.length)
              (rebuildTerms sym (t :: ts))) = some (ptrim (c :: rest).reverse)
          rw [toPoly, toPoly_coeffTerm sym hc, ← hrest, ih]
          show some (padd (monom c rest.length) (ptrim rest.reverse)) =
            some (ptrim (c :: rest).reverse)
          rw [List.reverse_cons]
          rw [← List.length_reverse rest]
          rw [padd_monom_trimmed hc]

theorem groupTerms_idem (sym : String) (e : MObj) :
    groupTermsM sym (groupTermsM sym e) = groupTermsM sym e := by
  rcases h : toPoly sym e with _ | P
  · simp [groupTermsM, h]
  · rcases P with _ | ⟨p, ps⟩
    · simp [groupTermsM, h]
    · have htrim := toPoly_trimmed sym e h
      have hre : toPoly sym (rebuildTerms sym (extractCoeffs (p :: ps))) =
          some (p :: ps) := by
        rw [extractCoeffs, toPoly_rebuild sym, List.reverse_reverse, htrim]
      simp only [groupTermsM, h, hre]

/-- C9: the term collector is idempotent and total in the model: for every
tree `e`, `group_terms(group_terms(e))` is the very tree `group_terms(e)`
(hence in particular has the same backend expression), and whenever the
tree has no polynomial backend expansion in the symbol (the
backend-failure `except` arm), `group_terms` returns its input unchanged
rather than raising. -/
theorem c9_collector_idempotent (sym : String) (e : MObj) :
    groupTermsM sym (groupTermsM sym e) = groupTermsM sym e ∧
    (toPoly sym e = none → groupTermsM sym e = e) :=
  ⟨groupTerms_idem sym e, fun h => by simp [groupTermsM, h]⟩

/-- C9 witness: the claim instantiated at `Pi`, whose backend expansion is
not a polynomial in `x`, discharging the failure-arm hypothesis there. -/
theorem c9_collector_idempotent_witness :
    (groupTermsM "x" (groupTermsM "x" MObj.Pi) = groupTermsM "x" MObj.Pi ∧
      (toPoly "x" MObj.Pi = none → groupTermsM "x" MObj.Pi = MObj.Pi)) ∧
    toPoly "x" MObj.Pi = none ∧ groupTermsM "x" MObj.Pi = MObj.Pi :=
  ⟨c9_collector_idempotent "x" MObj.Pi, rfl,
    (c9_collector_idempotent "x" MObj.Pi).2 rfl⟩

end Teachers
